import Mathlib

/-!
Verification of the three-tier memory subsystem (memory/*.py): data model with
exponential decay, the agent-state tracker, gated retrieval, and the
drift/contradiction monitors.  Python code is shallowly embedded: classes become
structures, mutating methods become functions returning the updated value,
Python floats are modelled as exact rationals (reals for the decay formula),
`datetime.now()` instants are passed in as explicit `now` arguments, and string
processing is done over `List Char`.
-/

namespace StatsMem

/- ## Text helpers (Python `str` operations over `List Char`) -/

abbrev Chars := List Char

/-- ASCII lowering of one character, the effect of Python str.lower() on the
ASCII texts this system stores. -/
def asciiLower (c : Char) : Char :=
  if 65 ≤ c.toNat ∧ c.toNat ≤ 90 then Char.ofNat (c.toNat + 32) else c

/-- Python str.lower() on ASCII text. -/
def lowerL (s : Chars) : Chars := s.map asciiLower

/-- Python str whitespace test (the characters `str.split()` splits on). -/
def isSpaceChar (c : Char) : Bool :=
  c = ' ' || c = '\t' || c = '\n' || c = '\r' || c = '\x0b' || c = '\x0c'

/-- The accumulator pass of pyWords: collect the current word (reversed) and
emit it at each whitespace boundary. -/
def pyWordsAux (acc : Chars) : Chars → List Chars
  | [] => if acc = [] then [] else [acc.reverse]
  | c :: rest =>
    if isSpaceChar c then
      if acc = [] then pyWordsAux [] rest else acc.reverse :: pyWordsAux [] rest
    else pyWordsAux (c :: acc) rest

/-- Python str.split() with no separator: split on runs of whitespace,
dropping empty pieces. -/
def pyWords (s : Chars) : List Chars := pyWordsAux [] s

/-- The word set of a text: Python set(text.split()), as a duplicate-free list
keeping first occurrences. -/
def wordSet (s : Chars) : List Chars := (pyWords s).dedup

/-- Size of the intersection of two Python sets represented as dedup lists. -/
def interCount (a b : List Chars) : ℕ := (a.filter (· ∈ b)).length

/-- Last n elements of a list, the retained part of a bounded deque or of a
Python slice xs[-n:]. -/
def takeLast (n : ℕ) (xs : List α) : List α := xs.drop (xs.length - n)

/- ## types.py: enums, half-life configuration, MemoryItem -/

/-- MemoryScope enum from types.py. -/
inductive MemoryScope
  | system | project | user | ephemeral
deriving DecidableEq, Repr

/-- MemoryStatus enum from types.py. -/
inductive MemoryStatus
  | active | contested | superseded | expired | archived
deriving DecidableEq, Repr

/-- MemoryCategory enum from types.py. -/
inductive MemoryCategory
  | factual | procedural | contextual | environmental | decision
deriving DecidableEq, Repr

/-- HALF_LIFE_CONFIG from types.py, in hours. -/
def HALF_LIFE_CONFIG : MemoryCategory → ℚ
  | .factual => 168
  | .procedural => 336
  | .contextual => 72
  | .environmental => 24
  | .decision => 48

/-- MemoryItem from types.py, evaluated at one instant: the derived quantities
age_hours (hours since the timestamp) and decay (the value of decay_factor at
that age, an exponential of the age as defined by decayFactorReal below) are
carried as data because every operation embedded here only reads them.
Timestamps themselves are represented by age_hours. -/
structure MemoryItem where
  content : String
  category : MemoryCategory
  scope : MemoryScope
  source : String
  confidence : ℚ
  status : MemoryStatus
  half_life_hours : Option ℚ
  evidence_refs : List String
  supersedes : Option String
  access_count : ℕ
  age_hours : ℚ
  decay : ℚ
  id : String
deriving DecidableEq, Repr

/-- MemoryItem.effective_half_life: the custom override if set, else the
category default looked up in HALF_LIFE_CONFIG (whose .get default 72 is
unreachable because the table is total on the enum). -/
def MemoryItem.effective_half_life (it : MemoryItem) : ℚ :=
  match it.half_life_hours with
  | some h => h
  | none => HALF_LIFE_CONFIG it.category

/-- The decay_factor formula of types.py over the reals:
lambda = 0.693 / half_life (the source's approximation of ln 2 / half_life),
decay = exp(-lambda * age). -/
noncomputable def decayFactorReal (half_life age : ℝ) : ℝ :=
  Real.exp (-(0.693 / half_life) * age)

/-- MemoryItem.needs_verification from types.py: expired, or decayed below
0.5, or contested. -/
def MemoryItem.needs_verification (it : MemoryItem) : Bool :=
  it.status = MemoryStatus.expired || decide (it.decay < 0.5) ||
    it.status = MemoryStatus.contested

/- ## tiers.py: WorkingContext and LongTermMemory -/

/-- An entry of WorkingContext._items. -/
structure WorkingEntry where
  content : String
  source : String
deriving DecidableEq, Repr

/-- WorkingContext from tiers.py.  The max_items dataclass field is carried,
but the _items deque is created by a default factory with maxlen fixed at 20,
independent of max_items. -/
structure WorkingContext where
  max_items : ℕ
  items : List WorkingEntry
deriving DecidableEq, Repr

/-- A fresh WorkingContext(max_items=mi): empty deque. -/
def WorkingContext.init (mi : ℕ) : WorkingContext := ⟨mi, []⟩

/-- The truncation applied by WorkingContext.add to contents longer than 500
characters. -/
def truncate500 (c : String) : String :=
  if 500 < c.length then c.take 500 ++ "... [truncated, see episodic trace]" else c

/-- WorkingContext.add: append the (possibly truncated) entry to the _items
deque, whose maxlen of 20 evicts oldest entries first. -/
def WorkingContext.add (w : WorkingContext) (content source : String) : WorkingContext :=
  { w with items := takeLast 20 (w.items ++ [⟨truncate500 content, source⟩]) }

/-- Fold WorkingContext.add over a list of (content, source) pairs. -/
def WorkingContext.addAll (w : WorkingContext) (l : List (String × String)) : WorkingContext :=
  l.foldl (fun acc p => acc.add p.1 p.2) w

/- ## agent_state.py -/

/-- PolicyVersion enum. -/
inductive PolicyVersion
  | normal | conservative | aggressive
deriving DecidableEq, Repr

/-- The .value string of a PolicyVersion member. -/
def PolicyVersion.value : PolicyVersion → String
  | .normal => "normal"
  | .conservative => "conservative"
  | .aggressive => "aggressive"

/-- Assumption dataclass; created holds the creation instant in hours. -/
structure Assumption where
  content : String
  confidence : ℚ
  source : String
  created : ℚ
  verified : Bool
deriving DecidableEq, Repr

/-- OpenQuestion dataclass. -/
structure OpenQuestion where
  question : String
  context : String
  priority : ℕ
  resolved : Bool
  resolution : Option String
deriving DecidableEq, Repr

/-- An entry of the focus window; timestamp holds the instant of the decision. -/
structure FocusEntry where
  decision : String
  rationale : String
  timestamp : ℚ
deriving DecidableEq, Repr

/-- AgentState dataclass.  The private quality counters are the trailing three
fields; last_updated holds an instant in hours. -/
structure AgentState where
  goals : List String
  constraints : List String
  assumptions : List Assumption
  open_questions : List OpenQuestion
  environment_flags : List (String × String)
  policy_version : PolicyVersion
  focus_window : List FocusEntry
  focus_window_size : ℕ
  version : ℕ
  last_updated : ℚ
  user_corrections : ℕ
  tool_retries : ℕ
  verification_failures : ℕ
deriving DecidableEq, Repr

/-- A fresh AgentState() with all dataclass defaults. -/
def AgentState.init : AgentState :=
  { goals := [], constraints := [], assumptions := [], open_questions := []
    environment_flags := [], policy_version := .normal, focus_window := []
    focus_window_size := 10, version := 0, last_updated := 0
    user_corrections := 0, tool_retries := 0, verification_failures := 0 }

/-- AgentState._bump_version: increment version, touch last_updated. -/
def AgentState.bump_version (s : AgentState) (now : ℚ) : AgentState :=
  { s with version := s.version + 1, last_updated := now }

/-- AgentState.set_goal: insert at the priority index (Python list.insert
clamps an out-of-range index to the end) if not already present, then bump. -/
def AgentState.set_goal (s : AgentState) (goal : String) (priority : ℕ) (now : ℚ) : AgentState :=
  if goal ∈ s.goals then s
  else (({ s with goals := s.goals.insertIdx (min priority s.goals.length) goal }).bump_version now)

/-- AgentState.complete_goal: remove the first occurrence if present, bump. -/
def AgentState.complete_goal (s : AgentState) (goal : String) (now : ℚ) : AgentState :=
  if goal ∈ s.goals then ({ s with goals := s.goals.erase goal }).bump_version now
  else s

/-- AgentState.add_constraint: append if new, bump. -/
def AgentState.add_constraint (s : AgentState) (constraint : String) (now : ℚ) : AgentState :=
  if constraint ∈ s.constraints then s
  else ({ s with constraints := s.constraints ++ [constraint] }).bump_version now

/-- The duplicate scan of AgentState.add_assumption: update the first
assumption with matching content to the max of the confidences, reporting
none when no duplicate exists. -/
def updateAssumption (content : String) (confidence : ℚ) :
    List Assumption → Option (List Assumption)
  | [] => none
  | a :: rest =>
    if a.content = content then some ({ a with confidence := max a.confidence confidence } :: rest)
    else (updateAssumption content confidence rest).map (a :: ·)

/-- AgentState.add_assumption: on duplicate content the existing assumption's
confidence is merged via max() and the method returns without bumping the
version; otherwise the new assumption is appended and the version bumped. -/
def AgentState.add_assumption (s : AgentState) (content : String) (confidence : ℚ)
    (source : String) (now : ℚ) : AgentState :=
  match updateAssumption content confidence s.assumptions with
  | some l => { s with assumptions := l }
  | none =>
    ({ s with assumptions :=
        s.assumptions ++ [Assumption.mk content confidence source now false] }).bump_version now

/-- The scan of AgentState.verify_assumption: mark the first assumption with
matching content verified. -/
def markVerified (content : String) : List Assumption → Option (List Assumption)
  | [] => none
  | a :: rest =>
    if a.content = content then some ({ a with verified := true } :: rest)
    else (markVerified content rest).map (a :: ·)

/-- AgentState.verify_assumption: set verified on the first match and bump;
no change when absent. -/
def AgentState.verify_assumption (s : AgentState) (content : String) (now : ℚ) : AgentState :=
  match markVerified content s.assumptions with
  | some l => ({ s with assumptions := l }).bump_version now
  | none => s

/-- The scan of AgentState.invalidate_assumption: drop the first assumption
with matching content. -/
def dropAssumption (content : String) : List Assumption → Option (List Assumption)
  | [] => none
  | a :: rest =>
    if a.content = content then some rest
    else (dropAssumption content rest).map (a :: ·)

/-- AgentState.invalidate_assumption: remove the first match and bump; no
change when absent. -/
def AgentState.invalidate_assumption (s : AgentState) (content : String) (now : ℚ) : AgentState :=
  match dropAssumption content s.assumptions with
  | some l => ({ s with assumptions := l }).bump_version now
  | none => s

/-- AgentState.add_question: always appends and bumps. -/
def AgentState.add_question (s : AgentState) (question context : String) (priority : ℕ)
    (now : ℚ) : AgentState :=
  ({ s with open_questions :=
      s.open_questions ++ [OpenQuestion.mk question context priority false none] }).bump_version now

/-- The scan of AgentState.resolve_question: mark the first question with
matching text resolved, recording the resolution. -/
def markResolved (question resolution : String) : List OpenQuestion → Option (List OpenQuestion)
  | [] => none
  | q :: rest =>
    if q.question = question then
      some ({ q with resolved := true, resolution := some resolution } :: rest)
    else (markResolved question resolution rest).map (q :: ·)

/-- AgentState.resolve_question: resolve the first match and bump; no change
when absent. -/
def AgentState.resolve_question (s : AgentState) (question resolution : String)
    (now : ℚ) : AgentState :=
  match markResolved question resolution s.open_questions with
  | some l => ({ s with open_questions := l }).bump_version now
  | none => s

/-- Dict assignment environment_flags[key] = value: update in place if the key
exists, else append. -/
def upsertFlag (key value : String) : List (String × String) → List (String × String)
  | [] => [(key, value)]
  | (k, v) :: rest =>
    if k = key then (key, value) :: rest else (k, v) :: upsertFlag key value rest

/-- AgentState.set_env_flag: always bumps. -/
def AgentState.set_env_flag (s : AgentState) (key value : String) (now : ℚ) : AgentState :=
  ({ s with environment_flags := upsertFlag key value s.environment_flags }).bump_version now

/-- AgentState.add_to_focus: append, trim the window to the last
focus_window_size entries when it exceeds that size, bump. -/
def AgentState.add_to_focus (s : AgentState) (decision rationale : String) (now : ℚ) : AgentState :=
  let fw := s.focus_window ++ [FocusEntry.mk decision rationale now]
  let fw := if s.focus_window_size < fw.length then takeLast s.focus_window_size fw else fw
  ({ s with focus_window := fw }).bump_version now

/-- AgentState._check_drift: escalate to CONSERVATIVE (with a bump) once the
quality counters sum to 3 or more, idempotently. -/
def AgentState.check_drift (s : AgentState) (now : ℚ) : AgentState :=
  if 3 ≤ s.user_corrections + s.tool_retries + s.verification_failures ∧
      s.policy_version ≠ PolicyVersion.conservative then
    ({ s with policy_version := .conservative }).bump_version now
  else s

/-- AgentState.record_quality_signal: increment the counter matching the
signal-type string (unknown strings increment nothing), then re-check drift. -/
def AgentState.record_quality_signal (s : AgentState) (signal_type : String)
    (now : ℚ) : AgentState :=
  let s :=
    if signal_type = "user_correction" then { s with user_corrections := s.user_corrections + 1 }
    else if signal_type = "tool_retry" then { s with tool_retries := s.tool_retries + 1 }
    else if signal_type = "verification_failure" then
      { s with verification_failures := s.verification_failures + 1 }
    else s
  s.check_drift now

/-- AgentState.reset_quality_signals: zero the counters and demote
CONSERVATIVE back to NORMAL (with a bump). -/
def AgentState.reset_quality_signals (s : AgentState) (now : ℚ) : AgentState :=
  let s := { s with user_corrections := 0, tool_retries := 0, verification_failures := 0 }
  if s.policy_version = PolicyVersion.conservative then
    ({ s with policy_version := .normal }).bump_version now
  else s

/-- The change report of AgentState.consolidate. -/
structure ConsolidateChanges where
  pruned : ℕ
  expired : ℕ
deriving DecidableEq, Repr

/-- AgentState.consolidate: drop resolved questions (the source counts
"pruned" on the already-filtered list, so it is always 0), expire unverified
assumptions older than 24 hours, bump. -/
def AgentState.consolidate (s : AgentState) (now : ℚ) : AgentState × ConsolidateChanges :=
  let qs := s.open_questions.filter (fun q => !q.resolved)
  let pruned := (qs.filter (fun q => q.resolved)).length
  let expired := s.assumptions.filter (fun a => !a.verified && decide (24 < now - a.created))
  let kept := s.assumptions.filter (fun a => !(!a.verified && decide (24 < now - a.created)))
  (({ s with open_questions := qs, assumptions := kept }).bump_version now,
    ⟨pruned, expired.length⟩)

/- ## tiers.py: LongTermMemory and EpisodicTraces -/

/-- The long-term store: Python dict values in insertion order (queries scan
self._store.values()). -/
abbrev LongTermStore := List MemoryItem

/-- DO_NOT_STORE_PATTERNS from types.py. -/
def DO_NOT_STORE_PATTERNS : List String :=
  ["intermediate chain-of-thought", "speculative reasoning", "unverified web claim",
   "one-off tool error", "transient preference"]

/-- LongTermMemory._should_store: reject content containing a deny-list
pattern (substring test on the lowered content). -/
def shouldStore (content : String) : Bool :=
  DO_NOT_STORE_PATTERNS.all (fun p => !decide (List.IsInfix p.toList (lowerL content.toList)))

/-- The word-overlap similarity of tiers.py (_is_similar's ratio): returns
false on empty word sets, else intersection size over the larger set size
compared to the 0.8 threshold. -/
def tiersIsSimilar (content1 content2 : String) : Bool :=
  let w1 := wordSet (lowerL content1.toList)
  let w2 := wordSet (lowerL content2.toList)
  if w1 = [] ∨ w2 = [] then false
  else decide ((0.8 : ℚ) < (interCount w1 w2 : ℚ) / (max w1.length w2.length : ℚ))

/-- The duplicate scan of LongTermMemory.store: bump the access count of the
first existing item similar to the new content (the Python loop returns at
the first match), reporting none when no similar item exists. -/
def bumpFirstSimilar (content : String) : LongTermStore → Option LongTermStore
  | [] => none
  | existing :: rest =>
    if tiersIsSimilar content existing.content then
      some ({ existing with access_count := existing.access_count + 1 } :: rest)
    else (bumpFirstSimilar content rest).map (existing :: ·)

/-- LongTermMemory.store: reject deny-listed content; on a near-duplicate
bump the first similar item's access count and report not stored; else insert
at the end of the store.  Returns the new store and whether the item was
stored. -/
def ltmStore (store : LongTermStore) (item : MemoryItem) : LongTermStore × Bool :=
  if !shouldStore item.content then (store, false)
  else
    match bumpFirstSimilar item.content store with
    | some store' => (store', false)
    | none => (store ++ [item], true)

/-- LongTermMemory.query: conjunctive filter scan in insertion order.  The
max_age_hours guard reproduces Python truthiness: a value of 0 disables the
age filter just like None. -/
def ltmQuery (store : LongTermStore) (category : Option MemoryCategory)
    (scope : Option MemoryScope) (status : Option MemoryStatus)
    (min_confidence : ℚ) (max_age_hours : Option ℚ) : List MemoryItem :=
  store.filter fun it =>
    (match category with | some c => it.category = c | none => true) &&
    (match scope with | some sc => it.scope = sc | none => true) &&
    (match status with | some st => it.status = st | none => true) &&
    decide (min_confidence ≤ it.confidence) &&
    (match max_age_hours with
     | some m => !(decide (m ≠ 0) && decide (m < it.age_hours))
     | none => true)

/-- LongTermMemory.prune_expired: remove items with decay_factor below 0.25,
returning the kept store and the removed items (whose status is set to
EXPIRED). -/
def ltmPruneExpired (store : LongTermStore) : LongTermStore × List MemoryItem :=
  (store.filter (fun it => !decide (it.decay < 0.25)),
   (store.filter (fun it => decide (it.decay < 0.25))).map
     (fun it => { it with status := .expired }))

/-- An episodic trace (EpisodicTrace of types.py); the trace id is a hash of
type, summary and instant, modelled as that triple. -/
structure EpisodicTrace where
  event_type : String
  summary : String
  timestamp : ℚ
deriving DecidableEq, Repr

/-- EpisodicTraces.record: truncate the summary to 300 characters and append
to a deque bounded at max_traces (default 1000), evicting oldest first. -/
def episodicRecord (max_traces : ℕ) (traces : List EpisodicTrace)
    (event_type summary : String) (now : ℚ) : List EpisodicTrace :=
  takeLast max_traces (traces ++ [EpisodicTrace.mk event_type (summary.take 300) now])

/- ## retrieval.py: GatedRetrieval -/

/-- RetrievalIntent enum. -/
inductive RetrievalIntent
  | planning | factual_qa | tool_orchestration | constraint_check | context_recall
deriving DecidableEq, Repr

/-- INTENT_CATEGORY_MAP from retrieval.py. -/
def INTENT_CATEGORY_MAP : RetrievalIntent → List MemoryCategory
  | .planning => [.decision, .contextual]
  | .factual_qa => [.factual]
  | .tool_orchestration => [.procedural, .environmental]
  | .constraint_check => [.contextual]
  | .context_recall => [.contextual, .decision]

/-- GatedRetrieval._get_confidence_threshold: the explicit override if given,
else the policy-derived floor. -/
def confidenceThreshold (override : Option ℚ) (policy : PolicyVersion) : ℚ :=
  match override with
  | some o => o
  | none =>
    match policy with
    | .normal => 0.5
    | .conservative => 0.7
    | .aggressive => 0.3

/-- GatedRetrieval._get_verification_threshold. -/
def verificationThreshold (policy : PolicyVersion) : ℚ :=
  match policy with
  | .normal => 0.6
  | .conservative => 0.8
  | .aggressive => 0.4

/-- The source-type prefix used by the source-quality lookup: the part of the
source string before the first colon when one is present. -/
def sourceTypeOf (source : String) : String :=
  if source.toList.contains ':' then String.mk (source.toList.takeWhile (· ≠ ':'))
  else source

/-- The source_scores lookup of _compute_score, defaulting to 0.5. -/
def sourceQuality (source : String) : ℚ :=
  let st := sourceTypeOf source
  if st = "user_input" then 1.0
  else if st = "verified_tool" then 0.9
  else if st = "web_search" then 0.6
  else if st = "inferred" then 0.5
  else if st = "unknown" then 0.3
  else 0.5

/-- GatedRetrieval._compute_score: confidence, decay, source quality, access
frequency, and (for a truthy query string, Python falsiness of "" included)
word overlap, capped at 1.0. -/
def computeScore (it : MemoryItem) (query : Option String) : ℚ :=
  let score := it.confidence * 0.3 + it.decay * 0.25 + sourceQuality it.source * 0.2 +
    min ((it.access_count : ℚ) / 10) 1 * 0.1
  let score :=
    match query with
    | some q =>
      if q = "" then score
      else
        let qw := wordSet (lowerL q.toList)
        let cw := wordSet (lowerL it.content.toList)
        score + (interCount qw cw : ℚ) / (max qw.length 1 : ℚ) * 0.15
    | none => score
  min score 1

/-- The single reasons of GatedRetrieval._get_verification_reason; an empty
list renders as "policy requirement". -/
inductive VerifyReason
  | contested | aged | lowConfidence | noEvidence
deriving DecidableEq, Repr

/-- GatedRetrieval._get_verification_reason as the list of applicable
reasons. -/
def getVerificationReason (it : MemoryItem) : List VerifyReason :=
  (if it.status = MemoryStatus.contested then [VerifyReason.contested] else []) ++
  (if it.decay < 0.5 then [VerifyReason.aged] else []) ++
  (if it.confidence < 0.6 then [VerifyReason.lowConfidence] else []) ++
  (if it.evidence_refs = [] then [VerifyReason.noEvidence] else [])

/-- ScoredMemory from retrieval.py. -/
structure ScoredMemory where
  item : MemoryItem
  score : ℚ
  needs_verif : Bool
  verification_reason : Option (List VerifyReason)
deriving DecidableEq, Repr

/-- RetrievalResult from retrieval.py.  The working_context passthrough (a
read-only snapshot of the working tier attached to the result) is omitted: it
never interacts with items, scoring or the budget. -/
structure RetrievalResult where
  items : List ScoredMemory
  verification_required : List ScoredMemory
  budget_exceeded : Bool
deriving DecidableEq, Repr

/-- GatedRetrieval._content_similarity: word overlap over the larger word
set, 0 when either set is empty. -/
def contentSimilarity (content1 content2 : String) : ℚ :=
  let w1 := wordSet (lowerL content1.toList)
  let w2 := wordSet (lowerL content2.toList)
  if w1 = [] ∨ w2 = [] then 0
  else (interCount w1 w2 : ℚ) / (max w1.length w2.length : ℚ)

/-- Insert one element into a list sorted by descending score, placing it
after any element of equal score (the stable position). -/
def insertByScore (x : ScoredMemory) : List ScoredMemory → List ScoredMemory
  | [] => [x]
  | y :: ys => if y.score < x.score then x :: y :: ys else y :: insertByScore x ys

/-- The stable descending sort scored.sort(key=score, reverse=True): a stable
sort by a total preorder is the unique permutation that is sorted and keeps
equal-score elements in input order, so this left-fold insertion sort agrees
with Python's Timsort. -/
def sortByScoreDesc (xs : List ScoredMemory) : List ScoredMemory :=
  xs.foldl (fun acc x => insertByScore x acc) []

/-- The inner loop of GatedRetrieval._apply_diversity: keep a candidate
unless it is over 0.8-similar to an already-kept item. -/
def diversityLoop (kept : List ScoredMemory) : List ScoredMemory → List ScoredMemory
  | [] => kept
  | c :: rest =>
    if kept.any (fun e => decide ((0.8:ℚ) < contentSimilarity c.item.content e.item.content)) then
      diversityLoop kept rest
    else diversityLoop (kept ++ [c]) rest

/-- GatedRetrieval._apply_diversity: lists of length at most one are returned
unchanged; otherwise the greedy duplicate filter seeded with the head. -/
def applyDiversity : List ScoredMemory → List ScoredMemory
  | [] => []
  | [x] => [x]
  | x :: rest => diversityLoop [x] rest

/-- Python len(content.split()), the word count of the token estimate. -/
def pyWordCount (content : String) : ℕ := (pyWords content.toList).length

/-- The loop of GatedRetrieval._apply_budget over the considered candidates:
admit an item when its 1.3-per-word token estimate still fits max_tokens
(otherwise mark the budget exceeded and keep scanning), and stop once
max_items items are admitted. -/
def budgetLoop (max_tokens : ℚ) (max_items : ℕ) :
    List ScoredMemory → List ScoredMemory → ℚ → Bool → List ScoredMemory × Bool
  | [], result, _, exceeded => (result, exceeded)
  | item :: rest, result, total, exceeded =>
    if total + (pyWordCount item.item.content : ℚ) * 1.3 ≤ max_tokens then
      if max_items ≤ result.length + 1 then (result ++ [item], exceeded)
      else budgetLoop max_tokens max_items rest (result ++ [item])
        (total + (pyWordCount item.item.content : ℚ) * 1.3) exceeded
    else
      if max_items ≤ result.length then (result, true)
      else budgetLoop max_tokens max_items rest result total true

/-- GatedRetrieval._apply_budget: run the loop over the first
max_items * 2 candidates. -/
def applyBudget (max_tokens : ℚ) (max_items : ℕ) (scored : List ScoredMemory) :
    List ScoredMemory × Bool :=
  budgetLoop max_tokens max_items (scored.take (max_items * 2)) [] 0 false

/-- Step 1 of GatedRetrieval.retrieve: query each mapped category for ACTIVE
items above the confidence threshold, concatenating per-category results. -/
def retrieveCandidates (store : LongTermStore) (policy : PolicyVersion)
    (intent : RetrievalIntent) (min_confidence : Option ℚ) : List MemoryItem :=
  (INTENT_CATEGORY_MAP intent).flatMap fun c =>
    ltmQuery store (some c) none (some .active) (confidenceThreshold min_confidence policy) none

/-- Steps 2-3 of GatedRetrieval.retrieve: score each candidate and attach the
verification flag (the union of the item's own needs_verification, a score
below the policy verification threshold, and decay below 0.5). -/
def retrieveScored (store : LongTermStore) (policy : PolicyVersion)
    (intent : RetrievalIntent) (query : Option String) (min_confidence : Option ℚ) :
    List ScoredMemory :=
  (retrieveCandidates store policy intent min_confidence).map fun it =>
    let score := computeScore it query
    let nv := it.needs_verification || decide (score < verificationThreshold policy) ||
      decide (it.decay < 0.5)
    { item := it, score := score, needs_verif := nv
      verification_reason := if nv then some (getVerificationReason it) else none }

/-- Steps 4-5 of GatedRetrieval.retrieve: sort by descending score, then the
diversity filter. -/
def retrieveDiverse (store : LongTermStore) (policy : PolicyVersion)
    (intent : RetrievalIntent) (query : Option String) (min_confidence : Option ℚ) :
    List ScoredMemory :=
  applyDiversity (sortByScoreDesc (retrieveScored store policy intent query min_confidence))

/-- GatedRetrieval.retrieve assembled: budget enforcement on the
post-diversity candidates, with the verification_required partition of the
admitted items. -/
def retrieve (store : LongTermStore) (policy : PolicyVersion) (max_tokens : ℚ)
    (max_items : ℕ) (intent : RetrievalIntent) (query : Option String)
    (min_confidence : Option ℚ) : RetrievalResult :=
  let diverse := retrieveDiverse store policy intent query min_confidence
  let fb := applyBudget max_tokens max_items diverse
  { items := fb.1
    verification_required := fb.1.filter (fun s => s.needs_verif)
    budget_exceeded := fb.2 }

/- ## monitors.py: ContradictionDetector

The regular expressions of monitors.py are embedded as token sequences.  In
every pattern used by the source, each variable-length token (word characters,
whitespace, digit runs) is followed by a token whose first character is
disjoint from its character class, so Python's backtracking matcher agrees
with the deterministic maximal-munch matcher below. -/

/-- Python regex word character (ASCII range of the texts stored here). -/
def isWordChar (c : Char) : Bool := c.isAlphanum || c = '_'

/-- Python regex digit-or-dot class of the number patterns. -/
def isNumChar (c : Char) : Bool := c.isDigit || c = '.'

/-- Tokens of the regular expressions used by monitors.py. -/
inductive RTok
  | word
  | lit (l : Chars)
  | wsStar
  | wsPlus
  | eqColon
  | num

/-- Match a token sequence at the start of a text by maximal munch.  Returns
the word capture, the number capture, and the unconsumed suffix. -/
def matchSeq : List RTok → Chars → Option (Option Chars × Option Chars × Chars)
  | [], s => some (none, none, s)
  | .lit l :: rest, s => if l.isPrefixOf s then matchSeq rest (s.drop l.length) else none
  | .word :: rest, s =>
    let w := s.takeWhile isWordChar
    if w.length = 0 then none
    else (matchSeq rest (s.drop w.length)).map (fun r => (some w, r.2.1, r.2.2))
  | .wsStar :: rest, s => matchSeq rest (s.drop (s.takeWhile isSpaceChar).length)
  | .wsPlus :: rest, s =>
    let w := s.takeWhile isSpaceChar
    if w.length = 0 then none else matchSeq rest (s.drop w.length)
  | .eqColon :: rest, s =>
    match s with
    | c :: cs => if c = '=' ∨ c = ':' then matchSeq rest cs else none
    | [] => none
  | .num :: rest, s =>
    let w := s.takeWhile isNumChar
    if w.length = 0 then none
    else (matchSeq rest (s.drop w.length)).map (fun r => (r.1, some w, r.2.2))

/-- Python re.search: try the pattern at each position left to right.  Returns
the captures, the matched text, and the suffix after the match. -/
def searchSeq (p : List RTok) : Chars → Option (Option Chars × Option Chars × Chars × Chars)
  | [] =>
    match matchSeq p [] with
    | some (wc, nc, suf) => some (wc, nc, [], suf)
    | none => none
  | c :: rest =>
    match matchSeq p (c :: rest) with
    | some (wc, nc, suf) =>
      some (wc, nc, (c :: rest).take ((c :: rest).length - suf.length), suf)
    | none => searchSeq p rest

/-- Python re.sub: replace each leftmost non-overlapping match using a
template of the word capture.  Every pattern used here consumes at least one
character per match, so fuel of length + 1 never runs out. -/
def subAllAux (p : List RTok) (tmpl : Option Chars → Chars) : ℕ → Chars → Chars
  | 0, s => s
  | _ + 1, [] => []
  | fuel + 1, c :: rest =>
    match matchSeq p (c :: rest) with
    | some (wc, _, suf) => tmpl wc ++ subAllAux p tmpl fuel suf
    | none => c :: subAllAux p tmpl fuel rest

/-- Python re.sub at fuel length + 1. -/
def subAll (p : List RTok) (tmpl : Option Chars → Chars) (s : Chars) : Chars :=
  subAllAux p tmpl (s.length + 1) s

/-- The negation_patterns table of ContradictionDetector, each with the
positive-form substitution template of its second component. -/
def negationPatterns : List (List RTok × (Option Chars → Chars)) :=
  [ ([RTok.word, RTok.lit (" is not".toList)], fun w => w.getD [] ++ " is".toList),
    ([RTok.word, RTok.lit (" are not".toList)], fun w => w.getD [] ++ " are".toList),
    ([RTok.word, RTok.lit (" cannot".toList)], fun w => w.getD [] ++ " can".toList),
    ([RTok.word, RTok.lit (" does not".toList)], fun w => w.getD [] ++ " does".toList),
    ([RTok.word, RTok.lit (" will not".toList)], fun w => w.getD [] ++ " will".toList),
    ([RTok.lit ("no ".toList), RTok.word], fun w => w.getD []),
    ([RTok.lit ("never ".toList), RTok.word], fun w => "always ".toList ++ w.getD []) ]

/-- The three number-association patterns of _extract_numbers. -/
def numberPatterns : List (List RTok) :=
  [ [RTok.word, RTok.wsStar, RTok.eqColon, RTok.wsStar, RTok.num],
    [RTok.word, RTok.wsPlus, RTok.lit ("is".toList), RTok.wsPlus, RTok.num],
    [RTok.word, RTok.wsPlus, RTok.lit ("are".toList), RTok.wsPlus, RTok.num] ]

/-- ContradictionDetector._content_overlap: word overlap over the larger set;
callers pass already-lowered text, and this function does not lower. -/
def contentOverlapM (c1 c2 : Chars) : ℚ :=
  let w1 := (pyWords c1).dedup
  let w2 := (pyWords c2).dedup
  if w1 = [] ∨ w2 = [] then 0
  else (interCount w1 w2 : ℚ) / (max w1.length w2.length : ℚ)

/-- Python re.finditer: leftmost non-overlapping matches, each contributing
its word and number captures.  Fuel as in subAll. -/
def findAllAux (p : List RTok) : ℕ → Chars → List (Chars × Chars)
  | 0, _ => []
  | _ + 1, [] => []
  | fuel + 1, c :: rest =>
    match matchSeq p (c :: rest) with
    | some (some w, some n, suf) => (w, n) :: findAllAux p fuel suf
    | some (_, _, _) => findAllAux p fuel rest
    | none => findAllAux p fuel rest

/-- Python re.finditer at fuel length + 1. -/
def findAll (p : List RTok) (s : Chars) : List (Chars × Chars) :=
  findAllAux p (s.length + 1) s

/-- Numeric value of a digit run. -/
def digitsVal (s : Chars) : ℕ := s.foldl (fun acc c => 10 * acc + (c.toNat - 48)) 0

/-- The digit analysis of Python float() on a token drawn from the
digit-or-dot class: at most one dot and at least one digit; returns the
mantissa digits and the count of fractional digits. -/
def parseFloatDigits (s : Chars) : Option (ℕ × ℕ) :=
  if s.any (fun c => !isNumChar c) then none
  else if s.count '.' = 0 then
    if s = [] then none else some (digitsVal s, 0)
  else if s.count '.' = 1 then
    let ip := s.takeWhile (· ≠ '.')
    let fp := (s.dropWhile (· ≠ '.')).tail
    if ip = [] ∧ fp = [] then none
    else some (digitsVal (ip ++ fp), fp.length)
  else none

/-- Python float() as an exact rational. -/
def parseFloat (s : Chars) : Option ℚ :=
  (parseFloatDigits s).map (fun p => (p.1 : ℚ) / (10 ^ p.2 : ℚ))

/-- Dict assignment numbers[key] = value. -/
def upsertNum (k : Chars) (v : ℚ) : List (Chars × ℚ) → List (Chars × ℚ)
  | [] => [(k, v)]
  | (k', v') :: rest => if k' = k then (k, v) :: rest else (k', v') :: upsertNum k v rest

/-- ContradictionDetector._extract_numbers: run the three patterns in order,
dict-assigning each successfully float-parsed match. -/
def extract_numbers (text : Chars) : List (Chars × ℚ) :=
  numberPatterns.foldl (fun acc p =>
    (findAll p text).foldl (fun acc2 kv =>
      match parseFloat kv.2 with
      | some v => upsertNum kv.1 v acc2
      | none => acc2) acc) []

/-- Dict lookup in an association list. -/
def lookupNum (k : Chars) (l : List (Chars × ℚ)) : Option ℚ :=
  (l.find? (fun kv => kv.1 = k)).map (fun kv => kv.2)

/-- A contradiction reason of _detect_contradiction, structured instead of
formatted into a message string. -/
inductive ConflictReason
  | negation (matched : Chars)
  | numeric (key : Chars) (newVal oldVal : ℚ)
  | phrase (pos neg : Chars)
deriving DecidableEq, Repr

/-- The negation-pattern stage of _detect_contradiction: the first pattern
that matches the new text and whose positive-form rewrite overlaps the old
text above 0.5. -/
def negationConflict (nl ol : Chars) : Option ConflictReason :=
  negationPatterns.findSome? fun pr =>
    match searchSeq pr.1 nl with
    | some (_, _, matched, _) =>
      if (0.5:ℚ) < contentOverlapM (subAll pr.1 pr.2 nl) ol then
        some (ConflictReason.negation matched)
      else none
    | none => none

/-- The numeric-conflict stage of _detect_contradiction: a key mapped to
different numbers by the two texts.  Python iterates the unordered
intersection of the key sets; this scan uses the new text's insertion order,
which agrees whenever at most one key conflicts. -/
def numericConflict (nl ol : Chars) : Option ConflictReason :=
  let nn := extract_numbers nl
  let on_ := extract_numbers ol
  nn.findSome? fun kv =>
    match lookupNum kv.1 on_ with
    | some v2 => if kv.2 ≠ v2 then some (ConflictReason.numeric kv.1 kv.2 v2) else none
    | none => none

/-- The contradiction_phrases table of _detect_contradiction. -/
def contradictionPhrases : List (Chars × Chars) :=
  [ ("was".toList, "was not".toList), ("is".toList, "is not".toList),
    ("can".toList, "cannot".toList), ("true".toList, "false".toList),
    ("correct".toList, "incorrect".toList), ("valid".toList, "invalid".toList) ]

/-- The phrase-polarity stage of _detect_contradiction: positive phrase in
the new text, negative in the old, gated by overall word overlap above 0.3. -/
def phraseConflict (nl ol : Chars) : Option ConflictReason :=
  (contradictionPhrases.find? fun pr =>
    decide (List.IsInfix pr.1 nl) && decide (List.IsInfix pr.2 ol) &&
      decide ((0.3:ℚ) < contentOverlapM nl ol)).map fun pr =>
    ConflictReason.phrase pr.1 pr.2

/-- ContradictionDetector._detect_contradiction: lower both texts, then the
negation, numeric, and phrase stages in order. -/
def detect_contradiction (new_content old_content : String) : Option ConflictReason :=
  let nl := lowerL new_content.toList
  let ol := lowerL old_content.toList
  match negationConflict nl ol with
  | some r => some r
  | none =>
    match numericConflict nl ol with
    | some r => some r
    | none => phraseConflict nl ol

/-- ContradictionDetector.check_contradiction: scan the ACTIVE items of the
store (restricted to the category when one is given) and collect each
conflicting item with its reason, in store order. -/
def check_contradiction (store : LongTermStore) (new_content : String)
    (category : Option MemoryCategory) : List (MemoryItem × ConflictReason) :=
  (ltmQuery store category none (some .active) 0 none).filterMap fun it =>
    (detect_contradiction new_content it.content).map (fun r => (it, r))

/- ## monitors.py: DriftMonitor -/

/-- DriftSignal enum. -/
inductive DriftSignal
  | user_correction | tool_retry | verification_failure
  | contradiction | hallucination_flag | loop_detected
deriving DecidableEq, Repr

/-- QualitySignal dataclass (timestamp omitted: never read). -/
structure QualitySignal where
  signal_type : DriftSignal
  details : String
  severity : ℕ
deriving DecidableEq, Repr

/-- DriftMonitor: the sliding window and its thresholds; the AgentState it
mutates is passed alongside. -/
structure DriftMonitor where
  window_size : ℕ
  alert_threshold : ℕ
  signal_window : List QualitySignal
deriving DecidableEq, Repr

/-- A fresh DriftMonitor(state) with default window_size=20,
alert_threshold=3. -/
def DriftMonitor.init : DriftMonitor := ⟨20, 3, []⟩

/-- Count of signals of one type in the window. -/
def countSignals (w : List QualitySignal) (t : DriftSignal) : ℕ :=
  (w.filter (fun s => s.signal_type = t)).length

/-- Total severity of the window. -/
def totalSeverity (w : List QualitySignal) : ℕ := (w.map (fun s => s.severity)).sum

/-- The reasons list built by DriftMonitor._check_drift, in condition order.
Constructors stand for the four fixed reason strings. -/
inductive DriftReason
  | userCorrections | loopDetected | highSeverity | contradictions
deriving DecidableEq, Repr

/-- The four drift conditions of _check_drift. -/
def driftReasons (m : DriftMonitor) : List DriftReason :=
  (if 2 ≤ countSignals m.signal_window .user_correction then [DriftReason.userCorrections] else []) ++
  (if 1 ≤ countSignals m.signal_window .loop_detected then [DriftReason.loopDetected] else []) ++
  (if m.alert_threshold * 2 ≤ totalSeverity m.signal_window then [DriftReason.highSeverity] else []) ++
  (if 2 ≤ countSignals m.signal_window .contradiction then [DriftReason.contradictions] else [])

/-- DriftMonitor._trigger_drift_response: switch the policy to CONSERVATIVE by
direct field assignment (no version bump), then forward quality signals for
the reasons whose strings contain "user correction" or "loop" (exactly the
first two constructors). -/
def triggerDriftResponse (st : AgentState) (reasons : List DriftReason) (now : ℚ) : AgentState :=
  let st :=
    if st.policy_version ≠ PolicyVersion.conservative then
      { st with policy_version := .conservative }
    else st
  reasons.foldl (fun s r =>
    match r with
    | .userCorrections => s.record_quality_signal ("user_correction") now
    | .loopDetected => s.record_quality_signal ("tool_retry") now
    | _ => s) st

/-- DriftMonitor._check_drift: no check at all while the window holds fewer
than 5 signals; otherwise trigger the drift response when any condition
holds. -/
def DriftMonitor.check_drift (m : DriftMonitor) (st : AgentState) (now : ℚ) : AgentState :=
  if m.signal_window.length < 5 then st
  else
    let reasons := driftReasons m
    if reasons ≠ [] then triggerDriftResponse st reasons now else st

/-- DriftMonitor.record_signal: append to the window (bounded deque of
window_size, oldest evicted) and re-check drift. -/
def DriftMonitor.record_signal (m : DriftMonitor) (st : AgentState) (sig : DriftSignal)
    (details : String) (severity : ℕ) (now : ℚ) : DriftMonitor × AgentState :=
  let w := takeLast m.window_size (m.signal_window ++ [QualitySignal.mk sig details severity])
  let m := { m with signal_window := w }
  (m, m.check_drift st now)

/-- The health summary of DriftMonitor.get_health_summary (the per-type count
dict is omitted; policy reports the state's policy string). -/
structure HealthSummary where
  window_len : ℕ
  total_severity : ℕ
  policy : String
  health : String
deriving DecidableEq, Repr

/-- DriftMonitor.get_health_summary. -/
def DriftMonitor.get_health_summary (m : DriftMonitor) (st : AgentState) : HealthSummary :=
  { window_len := m.signal_window.length
    total_severity := totalSeverity m.signal_window
    policy := st.policy_version.value
    health := if totalSeverity m.signal_window < m.alert_threshold then "healthy" else "degraded" }

/-- DriftMonitor.reset: clear the window and reset the state's quality
signals. -/
def DriftMonitor.reset (m : DriftMonitor) (st : AgentState) (now : ℚ) :
    DriftMonitor × AgentState :=
  ({ m with signal_window := [] }, st.reset_quality_signals now)

/- ## monitors.py: FocusWindowManager -/

/-- The shared world a FocusWindowManager mutates: the agent state, the
long-term store, and the episodic traces (deque bounded at 1000). -/
structure MemWorld where
  state : AgentState
  long_term : LongTermStore
  episodic : List EpisodicTrace
deriving DecidableEq, Repr

/-- FocusWindowManager: bounds and the operation counter. -/
structure FocusWindowManager where
  max_decisions : ℕ
  consolidation_interval : ℕ
  operation_count : ℕ
deriving DecidableEq, Repr

/-- The change report of FocusWindowManager.consolidate. -/
structure FWMReport where
  archived : ℕ
  promoted : ℕ
  expired : ℕ
deriving DecidableEq, Repr

/-- A promoted assumption as store_long_term builds it: FACTUAL, PROJECT
scope, fresh creation instant (age 0, decay 1); the deterministic
content-and-timestamp hash id is represented by the content. -/
def promotedItem (a : Assumption) : MemoryItem :=
  { content := a.content, category := .factual, scope := .project, source := a.source
    confidence := a.confidence, status := .active, half_life_hours := none
    evidence_refs := [], supersedes := none, access_count := 0
    age_hours := 0, decay := 1, id := a.content }

/-- FocusWindowManager.consolidate: archive focus-window overflow beyond
max_decisions to episodic traces (oldest first, by direct assignment to the
state's field, no version bump), attempt promotion of each verified
assumption with confidence at least 0.9 (the report counts attempts,
successful or deduplicated), run AgentState.consolidate, prune expired
long-term items into episodic traces, and zero the operation counter. -/
def fwmConsolidate (f : FocusWindowManager) (w : MemWorld) (now : ℚ) :
    FocusWindowManager × MemWorld × FWMReport :=
  let fw := w.state.focus_window
  let (state, episodic, archived) :=
    if f.max_decisions < fw.length then
      let overflow := fw.take (fw.length - f.max_decisions)
      let episodic := overflow.foldl (fun tr item =>
        episodicRecord 1000 tr ("decision_archived") ("Decision: " ++ item.decision) now) w.episodic
      ({ w.state with focus_window := takeLast f.max_decisions fw }, episodic, overflow.length)
    else (w.state, w.episodic, 0)
  let (long_term, promoted) := state.assumptions.foldl (fun (acc : LongTermStore × ℕ) a =>
    if a.verified ∧ (0.9:ℚ) ≤ a.confidence then ((ltmStore acc.1 (promotedItem a)).1, acc.2 + 1)
    else acc) (w.long_term, 0)
  let (state, changes) := state.consolidate now
  let (long_term, expired_mems) := ltmPruneExpired long_term
  let episodic := expired_mems.foldl (fun tr mem =>
    episodicRecord 1000 tr ("memory_expired") ("Expired: " ++ mem.content.take 100) now) episodic
  ({ f with operation_count := 0 },
   { state := state, long_term := long_term, episodic := episodic },
   { archived := archived, promoted := promoted, expired := changes.expired })

/-- FocusWindowManager.add_decision: add to the state's focus window, count
the operation, and consolidate once the counter reaches the interval. -/
def fwmAddDecision (f : FocusWindowManager) (w : MemWorld) (decision rationale : String)
    (now : ℚ) : FocusWindowManager × MemWorld :=
  let w := { w with state := w.state.add_to_focus decision rationale now }
  let f := { f with operation_count := f.operation_count + 1 }
  if f.consolidation_interval ≤ f.operation_count then
    let r := fwmConsolidate f w now
    (r.1, r.2.1)
  else (f, w)

/-- Fold fwmAddDecision over a list of decisions. -/
def fwmAddAll (f : FocusWindowManager) (w : MemWorld) (l : List (String × String)) (now : ℚ) :
    FocusWindowManager × MemWorld :=
  l.foldl (fun acc p => fwmAddDecision acc.1 acc.2 p.1 p.2 now) (f, w)

/- ## Persistence loading (tiers.py _load, types.py from_dict) -/

/-- A decoded JSON value. -/
inductive JValue
  | null
  | bool (b : Bool)
  | num (q : ℚ)
  | str (s : String)
  | arr (xs : List JValue)
  | obj (fields : List (String × JValue))

/-- The Python exceptions the load path can raise or catch. -/
inductive PyError
  | keyError (k : String)
  | valueError
  | typeError
deriving DecidableEq, Repr

/-- Dict lookup data[k]. -/
def jGet (fields : List (String × JValue)) (k : String) : Option JValue :=
  (fields.find? (fun kv => kv.1 = k)).map (fun kv => kv.2)

/-- Required dict access data[k]: KeyError when absent. -/
def jIndex (fields : List (String × JValue)) (k : String) : Except PyError JValue :=
  match jGet fields k with
  | some v => Except.ok v
  | none => Except.error (PyError.keyError k)

/-- Require a JSON string (the type to_dict writes for this field; a value of
another type would be accepted silently by the Python constructor but cannot
arise from a to_dict dump). -/
def jAsStr : JValue → Except PyError String
  | .str s => Except.ok s
  | _ => Except.error PyError.typeError

/-- Require a JSON number. -/
def jAsNum : JValue → Except PyError ℚ
  | .num q => Except.ok q
  | _ => Except.error PyError.typeError

/-- MemoryCategory(value): ValueError on anything but a member value. -/
def categoryOfValue : String → Except PyError MemoryCategory
  | "factual" => Except.ok .factual
  | "procedural" => Except.ok .procedural
  | "contextual" => Except.ok .contextual
  | "environmental" => Except.ok .environmental
  | "decision" => Except.ok .decision
  | _ => Except.error PyError.valueError

/-- MemoryScope(value). -/
def scopeOfValue : String → Except PyError MemoryScope
  | "system" => Except.ok .system
  | "project" => Except.ok .project
  | "user" => Except.ok .user
  | "ephemeral" => Except.ok .ephemeral
  | _ => Except.error PyError.valueError

/-- MemoryStatus(value). -/
def statusOfValue : String → Except PyError MemoryStatus
  | "active" => Except.ok .active
  | "contested" => Except.ok .contested
  | "superseded" => Except.ok .superseded
  | "expired" => Except.ok .expired
  | "archived" => Except.ok .archived
  | _ => Except.error PyError.valueError

/-- A run of exactly n ASCII digits. -/
def isDigits (n : ℕ) (s : Chars) : Bool := s.length = n && s.all (fun c => c.isDigit)

/-- Shape check for the time part HH:MM[:SS[.ffffff]] accepted by
datetime.fromisoformat. -/
def isIsoTime (s : Chars) : Bool :=
  match s.splitOn ':' with
  | [h, m] => isDigits 2 h && isDigits 2 m
  | [h, m, sec] =>
    isDigits 2 h && isDigits 2 m &&
      (match sec.splitOn '.' with
       | [w] => isDigits 2 w
       | [w, f] => isDigits 2 w && (isDigits 3 f || isDigits 6 f)
       | _ => false)
  | _ => false

/-- Shape check for the strings datetime.fromisoformat accepts:
YYYY-MM-DD, optionally followed by a separator and a time. -/
def isIsoDateTime (s : String) : Bool :=
  let cs := s.toList
  let date := cs.take 10
  (match date.splitOn '-' with
   | [y, m, d] => isDigits 4 y && isDigits 2 m && isDigits 2 d
   | _ => false) &&
  (match cs.drop 10 with
   | [] => true
   | _ :: t => isIsoTime t)

/-- datetime.fromisoformat on a required string field: TypeError when the
value is not a string, ValueError when the shape is wrong.  The parsed
instant itself is not tracked: the load model evaluates items at their
creation instant (age 0, decay 1), and no verified property reads a loaded
item's age. -/
def parseIso (v : JValue) : Except PyError Unit :=
  match v with
  | .str s => if isIsoDateTime s then Except.ok () else Except.error PyError.valueError
  | _ => Except.error PyError.typeError

/-- MemoryItem.from_dict: required keys raise KeyError when missing, enum
values raise ValueError when unknown, timestamps are validated by
fromisoformat; optional keys fall back to defaults, and a falsy
last_accessed (null or "") is skipped. -/
def memItemFromDict (v : JValue) : Except PyError MemoryItem := do
  match v with
  | .obj data =>
    let content ← jAsStr (← jIndex data ("content"))
    let category ← categoryOfValue (← jAsStr (← jIndex data ("category")))
    let scope ← scopeOfValue (← jAsStr (← jIndex data ("scope")))
    let source ← jAsStr (← jIndex data ("source"))
    let _ ← parseIso (← jIndex data ("timestamp"))
    let confidence ← jAsNum (← jIndex data ("confidence"))
    let status ← statusOfValue (← jAsStr (← jIndex data ("status")))
    let half_life ← match jGet data ("half_life_hours") with
      | some (.num q) => pure (some q)
      | some .null | none => pure none
      | some _ => Except.error PyError.typeError
    let refs ← match jGet data ("evidence_refs") with
      | some (.arr xs) => xs.mapM jAsStr
      | none => pure []
      | some _ => Except.error PyError.typeError
    let supersedes ← match jGet data ("supersedes") with
      | some (.str s) => pure (some s)
      | some .null | none => pure none
      | some _ => Except.error PyError.typeError
    let access ← match jGet data ("access_count") with
      | some (.num q) => pure q.num.toNat
      | none => pure 0
      | some _ => Except.error PyError.typeError
    let _ ← match jGet data ("last_accessed") with
      | some .null | none | some (.str "") => pure ()
      | some (.str s) =>
        if isIsoDateTime s then pure () else Except.error PyError.valueError
      | some _ => Except.error PyError.typeError
    let id ← jAsStr (← jIndex data ("id"))
    pure { content := content, category := category, scope := scope, source := source
           confidence := confidence, status := status, half_life_hours := half_life
           evidence_refs := refs, supersedes := supersedes, access_count := access
           age_hours := 0, decay := 1, id := id }
  | _ => Except.error PyError.typeError

/-- The state of a persistence file as the loader sees it. -/
inductive FileState
  | missing
  | undecodable
  | decoded (v : JValue)

/-- LongTermMemory._load: FileNotFoundError and json.JSONDecodeError are
caught and give the empty store; any exception raised while rebuilding items
from decoded JSON (KeyError, ValueError, TypeError) propagates. -/
def ltmLoad : FileState → Except PyError LongTermStore
  | .missing => Except.ok []
  | .undecodable => Except.ok []
  | .decoded (.obj fields) => fields.mapM (fun kv => memItemFromDict kv.2)
  | .decoded _ => Except.error PyError.typeError

/-- EpisodicTrace rebuilt by EpisodicTraces._load: trace_id, event_type,
summary and timestamp are required keys (KeyError when missing). -/
def episodicTraceFromDict (v : JValue) : Except PyError EpisodicTrace := do
  match v with
  | .obj data =>
    let _ ← jAsStr (← jIndex data ("trace_id"))
    let event_type ← jAsStr (← jIndex data ("event_type"))
    let summary ← jAsStr (← jIndex data ("summary"))
    let _ ← parseIso (← jIndex data ("timestamp"))
    pure { event_type := event_type, summary := summary, timestamp := 0 }
  | _ => Except.error PyError.typeError

/-- EpisodicTraces._load: same two caught exception classes; rebuilding the
traces from decoded JSON propagates any other exception. -/
def episodicLoad : FileState → Except PyError (List EpisodicTrace)
  | .missing => Except.ok []
  | .undecodable => Except.ok []
  | .decoded (.arr xs) => (xs.mapM episodicTraceFromDict).map (takeLast 1000)
  | .decoded _ => Except.error PyError.typeError

/- ## Concrete test fixtures -/

/-- A freshly stored FACTUAL item with confidence 0.95 (age 0, decay 1). -/
def item95 : MemoryItem :=
  { content := "alpha fact one", category := .factual, scope := .project
    source := "verified_tool", confidence := 0.95, status := .active
    half_life_hours := none, evidence_refs := [], supersedes := none
    access_count := 0, age_hours := 0, decay := 1, id := "m95" }

/-- A freshly stored FACTUAL item with confidence 0.6. -/
def item60 : MemoryItem :=
  { content := "beta data two", category := .factual, scope := .project
    source := "web_search", confidence := 0.6, status := .active
    half_life_hours := none, evidence_refs := [], supersedes := none
    access_count := 0, age_hours := 0, decay := 1, id := "m60" }

/-- A freshly stored FACTUAL item with confidence 0.4. -/
def item40 : MemoryItem :=
  { content := "gamma note three", category := .factual, scope := .project
    source := "inferred", confidence := 0.4, status := .active
    half_life_hours := none, evidence_refs := [], supersedes := none
    access_count := 0, age_hours := 0, decay := 1, id := "m40" }

/-- The store of the end-to-end retrieval threshold scenario. -/
def scenarioStore : LongTermStore := [item95, item60, item40]

/-- A high-scoring ten-word item whose token estimate (13) exceeds a budget
of 5. -/
def bigItem : MemoryItem :=
  { content := "one two three four five six seven eight nine ten", category := .factual
    scope := .project, source := "unknown", confidence := 0.95, status := .active
    half_life_hours := none, evidence_refs := [], supersedes := none
    access_count := 0, age_hours := 0, decay := 1, id := "big" }

/-- A lower-scoring two-word item whose token estimate (2.6) fits a budget
of 5. -/
def smallItem : MemoryItem :=
  { content := "tiny note", category := .factual, scope := .project
    source := "unknown", confidence := 0.6, status := .active
    half_life_hours := none, evidence_refs := [], supersedes := none
    access_count := 0, age_hours := 0, decay := 1, id := "small" }

/-- The store of the budget-enforcement counterexample. -/
def budgetStore : LongTermStore := [bigItem, smallItem]

/-- The stored claim of the numeric-contradiction scenario. -/
def anchorItem : MemoryItem :=
  { content := "anchoring effect size is d = 0.5", category := .factual
    scope := .project, source := "study_1", confidence := 0.9, status := .active
    half_life_hours := none, evidence_refs := [], supersedes := none
    access_count := 0, age_hours := 0, decay := 1, id := "anchor" }

/-- A schema-invalid persistence file: well-formed JSON whose single record
is an empty object, so rebuilding raises KeyError("content"). -/
def badLtmFile : FileState := FileState.decoded (JValue.obj [("a", JValue.obj [])])

/-- The same schema-invalid record list for the episodic loader. -/
def badEpisodicFile : FileState := FileState.decoded (JValue.arr [JValue.obj []])

/-- Two USER_CORRECTION signals recorded on a fresh DriftMonitor and fresh
AgentState, at the given instants. -/
def driftTwo (n1 n2 : ℚ) : DriftMonitor × AgentState :=
  let r1 := DriftMonitor.init.record_signal AgentState.init .user_correction ("") 1 n1
  r1.1.record_signal r1.2 .user_correction ("") 1 n2

/-- Five USER_CORRECTION signals recorded on a fresh DriftMonitor and fresh
AgentState. -/
def driftFive (n1 n2 n3 n4 n5 : ℚ) : DriftMonitor × AgentState :=
  let r2 := driftTwo n1 n2
  let r3 := r2.1.record_signal r2.2 .user_correction ("") 1 n3
  let r4 := r3.1.record_signal r3.2 .user_correction ("") 1 n4
  r4.1.record_signal r4.2 .user_correction ("") 1 n5

/-- A fresh AgentState(focus_window_size=f). -/
def freshStateF (f : ℕ) : AgentState := { AgentState.init with focus_window_size := f }

/-- A FocusWindowManager over a fresh world whose AgentState has the given
focus_window_size, after adding a list of decisions. -/
def fwmScenario (m interval f : ℕ) (l : List (String × String)) (now : ℚ) :
    FocusWindowManager × MemWorld :=
  fwmAddAll ⟨m, interval, 0⟩ ⟨freshStateF f, [], []⟩ l now

/- ## Helper lemmas -/

theorem takeLast_length_le (n : ℕ) (xs : List α) : (takeLast n xs).length ≤ n := by
  simp only [takeLast, List.length_drop]
  omega

theorem takeLast_eq_self {n : ℕ} {xs : List α} (h : xs.length ≤ n) : takeLast n xs = xs := by
  simp [takeLast, Nat.sub_eq_zero_of_le h]

theorem takeLast_append_left (n : ℕ) (a b : List α) :
    takeLast n (takeLast n a ++ b) = takeLast n (a ++ b) := by
  unfold takeLast
  rw [List.drop_append_eq_append_drop, List.drop_append_eq_append_drop, List.drop_drop]
  congr 1
  · congr 1
    simp only [List.length_drop, List.length_append]
    omega
  · congr 1
    simp only [List.length_drop, List.length_append]
    omega

theorem addAll_items (l : List (String × String)) :
    ∀ w : WorkingContext,
      (w.addAll l).items =
        takeLast 20 (w.items ++ l.map (fun p => WorkingEntry.mk (truncate500 p.1) p.2)) ∨
      20 < w.items.length := by
  induction l with
  | nil =>
    intro w
    by_cases h : w.items.length ≤ 20
    · exact Or.inl (by simp [WorkingContext.addAll, takeLast_eq_self h])
    · exact Or.inr (by omega)
  | cons p rest ih =>
    intro w
    by_cases h : w.items.length ≤ 20
    · have step : (w.add p.1 p.2).items =
          takeLast 20 (w.items ++ [WorkingEntry.mk (truncate500 p.1) p.2]) := rfl
      rcases ih (w.add p.1 p.2) with h2 | h2
      · refine Or.inl ?_
        have : (w.addAll (p :: rest)) = ((w.add p.1 p.2).addAll rest) := rfl
        rw [this, h2, step, takeLast_append_left]
        simp
      · exact absurd h2 (by simpa [step] using Nat.not_lt.2 (takeLast_length_le 20 _))
    · exact Or.inr (by omega)

/-- Scan lemma for add_assumption: no duplicate content means the scan finds
nothing. -/
theorem updateAssumption_eq_none_iff (c : String) (conf : ℚ) (l : List Assumption) :
    updateAssumption c conf l = none ↔ c ∉ l.map (fun a => a.content) := by
  induction l with
  | nil => simp [updateAssumption]
  | cons a rest ih =>
    by_cases h : a.content = c
    · simp [updateAssumption, h]
    · have h' : ¬ c = a.content := fun hc => h hc.symm
      simp [updateAssumption, h, Option.map_eq_none', ih]
      tauto

theorem markVerified_eq_none_iff (c : String) (l : List Assumption) :
    markVerified c l = none ↔ c ∉ l.map (fun a => a.content) := by
  induction l with
  | nil => simp [markVerified]
  | cons a rest ih =>
    by_cases h : a.content = c
    · simp [markVerified, h]
    · have h' : ¬ c = a.content := fun hc => h hc.symm
      simp [markVerified, h, Option.map_eq_none', ih]
      tauto

theorem dropAssumption_eq_none_iff (c : String) (l : List Assumption) :
    dropAssumption c l = none ↔ c ∉ l.map (fun a => a.content) := by
  induction l with
  | nil => simp [dropAssumption]
  | cons a rest ih =>
    by_cases h : a.content = c
    · simp [dropAssumption, h]
    · have h' : ¬ c = a.content := fun hc => h hc.symm
      simp [dropAssumption, h, Option.map_eq_none', ih]
      tauto

theorem markResolved_eq_none_iff (q r : String) (l : List OpenQuestion) :
    markResolved q r l = none ↔ q ∉ l.map (fun x => x.question) := by
  induction l with
  | nil => simp [markResolved]
  | cons a rest ih =>
    by_cases h : a.question = q
    · simp [markResolved, h]
    · have h' : ¬ q = a.question := fun hc => h hc.symm
      simp [markResolved, h, Option.map_eq_none', ih]
      tauto

theorem decay_at_half_life {hl : ℝ} (h : hl ≠ 0) :
    decayFactorReal hl hl = Real.exp (-(0.693 : ℝ)) := by
  unfold decayFactorReal
  congr 1
  field_simp

theorem exp_neg_addr_gt_half : (1 : ℝ)/2 < Real.exp (-(0.693 : ℝ)) := by
  have hlog : Real.exp (-Real.log 2) < Real.exp (-(0.693 : ℝ)) := by
    apply Real.exp_lt_exp.2
    have := Real.log_two_gt_d9
    norm_num at this ⊢
    linarith
  have h2 : Real.exp (-Real.log 2) = 1/2 := by
    rw [Real.exp_neg, Real.exp_log] <;> norm_num
  linarith

theorem budgetLoop_sublist (mt : ℚ) (mi : ℕ) :
    ∀ (rest result : List ScoredMemory) (total : ℚ) (ex : Bool),
      (budgetLoop mt mi rest result total ex).1.Sublist (result ++ rest) := by
  intro rest
  induction rest with
  | nil => intro result total ex; simp [budgetLoop]
  | cons item tl ih =>
    intro result total ex
    simp only [budgetLoop]
    by_cases h1 : total + (pyWordCount item.item.content : ℚ) * 1.3 ≤ mt
    · rw [if_pos h1]
      by_cases h2 : mi ≤ result.length + 1
      · rw [if_pos h2]
        exact List.Sublist.append_left (List.cons_sublist_cons.2 (List.nil_sublist tl)) result
      · rw [if_neg h2]
        simpa [List.append_assoc] using ih (result ++ [item]) _ ex
    · rw [if_neg h1]
      by_cases h2 : mi ≤ result.length
      · rw [if_pos h2]; exact List.sublist_append_left result (item :: tl)
      · rw [if_neg h2]
        exact (ih result total true).trans
          (List.Sublist.append_left (List.sublist_cons_self item tl) result)

theorem budgetLoop_length (mt : ℚ) (mi : ℕ) :
    ∀ (rest result : List ScoredMemory) (total : ℚ) (ex : Bool),
      result.length < mi → (budgetLoop mt mi rest result total ex).1.length ≤ mi := by
  intro rest
  induction rest with
  | nil => intro result total ex h; simpa [budgetLoop] using Nat.le_of_lt h
  | cons item tl ih =>
    intro result total ex h
    simp only [budgetLoop]
    by_cases h1 : total + (pyWordCount item.item.content : ℚ) * 1.3 ≤ mt
    · rw [if_pos h1]
      by_cases h2 : mi ≤ result.length + 1
      · rw [if_pos h2]; simp; omega
      · rw [if_neg h2]; exact ih _ _ ex (by simp; omega)
    · rw [if_neg h1]
      by_cases h2 : mi ≤ result.length
      · rw [if_pos h2]; omega
      · rw [if_neg h2]; exact ih _ _ true h

theorem budgetLoop_exceeded_sticky (mt : ℚ) (mi : ℕ) :
    ∀ (rest result : List ScoredMemory) (total : ℚ),
      (budgetLoop mt mi rest result total true).2 = true := by
  intro rest
  induction rest with
  | nil => intro result total; simp [budgetLoop]
  | cons item tl ih =>
    intro result total
    simp only [budgetLoop]
    by_cases h1 : total + (pyWordCount item.item.content : ℚ) * 1.3 ≤ mt
    · rw [if_pos h1]
      by_cases h2 : mi ≤ result.length + 1
      · rw [if_pos h2]
      · rw [if_neg h2]; exact ih _ _
    · rw [if_neg h1]
      by_cases h2 : mi ≤ result.length
      · rw [if_pos h2]
      · rw [if_neg h2]; exact ih _ _

theorem budgetLoop_complete (mt : ℚ) (mi : ℕ) :
    ∀ (rest result : List ScoredMemory) (total : ℚ),
      (budgetLoop mt mi rest result total false).2 = false →
      (budgetLoop mt mi rest result total false).1.length < mi →
      (budgetLoop mt mi rest result total false).1 = result ++ rest := by
  intro rest
  induction rest with
  | nil => intro result total _ _; simp [budgetLoop]
  | cons item tl ih =>
    intro result total hE hL
    simp only [budgetLoop] at hE hL ⊢
    by_cases h1 : total + (pyWordCount item.item.content : ℚ) * 1.3 ≤ mt
    · rw [if_pos h1] at hE hL ⊢
      by_cases h2 : mi ≤ result.length + 1
      · rw [if_pos h2] at hL
        simp at hL
        omega
      · rw [if_neg h2] at hE hL ⊢
        simpa [List.append_assoc] using ih (result ++ [item]) _ hE hL
    · rw [if_neg h1] at hE hL ⊢
      by_cases h2 : mi ≤ result.length
      · rw [if_pos h2] at hE; simp at hE
      · rw [if_neg h2] at hE
        rw [budgetLoop_exceeded_sticky mt mi tl result total] at hE
        simp at hE

theorem budgetLoop_dropped (mt : ℚ) (mi : ℕ) :
    ∀ (rest result : List ScoredMemory) (total : ℚ),
      (budgetLoop mt mi rest result total false).2 = true →
      (budgetLoop mt mi rest result total false).1.length < result.length + rest.length := by
  intro rest
  induction rest with
  | nil => intro result total hE; simp [budgetLoop] at hE
  | cons item tl ih =>
    intro result total hE
    simp only [budgetLoop] at hE ⊢
    by_cases h1 : total + (pyWordCount item.item.content : ℚ) * 1.3 ≤ mt
    · rw [if_pos h1] at hE ⊢
      by_cases h2 : mi ≤ result.length + 1
      · rw [if_pos h2] at hE; simp at hE
      · rw [if_neg h2] at hE ⊢
        have := ih (result ++ [item]) _ hE
        simp at this ⊢
        omega
    · rw [if_neg h1] at hE ⊢
      by_cases h2 : mi ≤ result.length
      · rw [if_pos h2] at hE ⊢
        simp only [List.length_cons]
        omega
      · rw [if_neg h2] at hE ⊢
        have := (budgetLoop_sublist mt mi tl result total true).length_le
        simp only [List.length_append, List.length_cons] at this ⊢
        omega

theorem insertByScore_perm (x : ScoredMemory) (l : List ScoredMemory) :
    (insertByScore x l).Perm (x :: l) := by
  induction l with
  | nil => simp [insertByScore]
  | cons y ys ih =>
    simp only [insertByScore]
    by_cases h : y.score < x.score
    · rw [if_pos h]
    · rw [if_neg h]
      exact (ih.cons y).trans (List.Perm.swap x y ys)

theorem sortByScoreDesc_perm (xs : List ScoredMemory) : (sortByScoreDesc xs).Perm xs := by
  have main : ∀ (l acc : List ScoredMemory),
      (l.foldl (fun acc x => insertByScore x acc) acc).Perm (acc ++ l) := by
    intro l
    induction l with
    | nil => intro acc; simp
    | cons x tl ih =>
      intro acc
      have h1 := ih (insertByScore x acc)
      have h2 : (insertByScore x acc ++ tl).Perm (acc ++ x :: tl) :=
        ((insertByScore_perm x acc).append_right tl).trans List.perm_middle.symm
      exact h1.trans h2
  simpa using main xs []

theorem insertByScore_pairwise {x : ScoredMemory} {l : List ScoredMemory}
    (h : l.Pairwise (fun a b => b.score ≤ a.score)) :
    (insertByScore x l).Pairwise (fun a b => b.score ≤ a.score) := by
  induction l with
  | nil => simp [insertByScore]
  | cons y ys ih =>
    rw [List.pairwise_cons] at h
    simp only [insertByScore]
    by_cases hc : y.score < x.score
    · rw [if_pos hc]
      refine List.Pairwise.cons ?_ (List.Pairwise.cons h.1 h.2)
      intro z hz
      rcases List.mem_cons.1 hz with rfl | hz
      · exact le_of_lt hc
      · exact (h.1 z hz).trans (le_of_lt hc)
    · rw [if_neg hc]
      refine List.Pairwise.cons ?_ (ih h.2)
      intro z hz
      rcases List.mem_cons.1 ((insertByScore_perm x ys).mem_iff.1 hz) with rfl | hz
      · exact not_lt.1 hc
      · exact h.1 z hz

theorem sortByScoreDesc_pairwise (xs : List ScoredMemory) :
    (sortByScoreDesc xs).Pairwise (fun a b => b.score ≤ a.score) := by
  have main : ∀ (l acc : List ScoredMemory),
      acc.Pairwise (fun a b => b.score ≤ a.score) →
      (l.foldl (fun acc x => insertByScore x acc) acc).Pairwise
        (fun a b => b.score ≤ a.score) := by
    intro l
    induction l with
    | nil => intro acc h; simpa using h
    | cons x tl ih => intro acc h; exact ih _ (insertByScore_pairwise h)
  exact main xs [] (by simp)

theorem diversityLoop_sublist :
    ∀ (l kept : List ScoredMemory), (diversityLoop kept l).Sublist (kept ++ l) := by
  intro l
  induction l with
  | nil => intro kept; simp [diversityLoop]
  | cons c tl ih =>
    intro kept
    simp only [diversityLoop]
    by_cases h : kept.any
        (fun e => decide ((0.8:ℚ) < contentSimilarity c.item.content e.item.content)) = true
    · rw [if_pos h]
      exact (ih kept).trans
        (List.Sublist.append_left (List.sublist_cons_self c tl) kept)
    · rw [if_neg h]
      simpa [List.append_assoc] using ih (kept ++ [c])

theorem applyDiversity_sublist (l : List ScoredMemory) : (applyDiversity l).Sublist l := by
  match l with
  | [] => simp [applyDiversity]
  | [x] => simp [applyDiversity]
  | x :: y :: rest =>
    have := diversityLoop_sublist (y :: rest) [x]
    simpa [applyDiversity] using this

theorem mem_retrieve_confidence {store : LongTermStore} {policy : PolicyVersion}
    {mt : ℚ} {mi : ℕ} {intent : RetrievalIntent} {q : Option String}
    {mc : Option ℚ} {x : ScoredMemory}
    (hx : x ∈ (retrieve store policy mt mi intent q mc).items) :
    confidenceThreshold mc policy ≤ x.item.confidence := by
  have h1 : x ∈ retrieveDiverse store policy intent q mc := by
    have hb := budgetLoop_sublist mt mi
      ((retrieveDiverse store policy intent q mc).take (mi * 2)) [] 0 false
    have hsub : (retrieve store policy mt mi intent q mc).items.Sublist
        ((retrieveDiverse store policy intent q mc).take (mi * 2)) := by
      simpa [retrieve, applyBudget] using hb
    exact (List.take_sublist _ _).subset (hsub.subset hx)
  have h2 : x ∈ sortByScoreDesc (retrieveScored store policy intent q mc) :=
    (applyDiversity_sublist _).subset h1
  have h3 : x ∈ retrieveScored store policy intent q mc :=
    (sortByScoreDesc_perm _).subset h2
  obtain ⟨it, hit, rfl⟩ := List.mem_map.1 h3
  obtain ⟨c, _, hq⟩ := List.mem_flatMap.1 hit
  have := List.of_mem_filter hq
  simp only [Bool.and_eq_true, decide_eq_true_eq] at this
  exact this.1.2

theorem takeLast_length (n : ℕ) (xs : List α) : (takeLast n xs).length = min n xs.length := by
  simp only [takeLast, List.length_drop]
  omega

theorem add_to_focus_assumptions (st : AgentState) (d r : String) (now : ℚ) :
    (st.add_to_focus d r now).assumptions = st.assumptions := by
  simp [AgentState.add_to_focus, AgentState.bump_version]

theorem add_to_focus_questions (st : AgentState) (d r : String) (now : ℚ) :
    (st.add_to_focus d r now).open_questions = st.open_questions := by
  simp [AgentState.add_to_focus, AgentState.bump_version]

theorem add_to_focus_size (st : AgentState) (d r : String) (now : ℚ) :
    (st.add_to_focus d r now).focus_window_size = st.focus_window_size := by
  simp [AgentState.add_to_focus, AgentState.bump_version]

theorem add_to_focus_length (st : AgentState) (d r : String) (now : ℚ)
    (h : st.focus_window.length ≤ st.focus_window_size) :
    (st.add_to_focus d r now).focus_window.length =
      min (st.focus_window.length + 1) st.focus_window_size := by
  simp only [AgentState.add_to_focus, AgentState.bump_version]
  split
  · next hc =>
    simp only [takeLast_length, List.length_append, List.length_cons, List.length_nil] at hc ⊢
    omega
  · next hc =>
    simp only [List.length_append, List.length_cons, List.length_nil] at hc ⊢
    omega

theorem foldl_add_to_focus (now : ℚ) :
    ∀ (l : List (String × String)) (st : AgentState),
      st.focus_window.length ≤ st.focus_window_size →
      ((l.foldl (fun s p => s.add_to_focus p.1 p.2 now) st).assumptions = st.assumptions ∧
       (l.foldl (fun s p => s.add_to_focus p.1 p.2 now) st).open_questions =
         st.open_questions ∧
       (l.foldl (fun s p => s.add_to_focus p.1 p.2 now) st).focus_window_size =
         st.focus_window_size ∧
       (l.foldl (fun s p => s.add_to_focus p.1 p.2 now) st).focus_window.length =
         min (st.focus_window.length + l.length) st.focus_window_size) := by
  intro l
  induction l with
  | nil =>
    intro st h
    refine ⟨rfl, rfl, rfl, ?_⟩
    simp
    omega
  | cons p tl ih =>
    intro st h
    have hlen := add_to_focus_length st p.1 p.2 now h
    have hsize := add_to_focus_size st p.1 p.2 now
    have hinv : (st.add_to_focus p.1 p.2 now).focus_window.length ≤
        (st.add_to_focus p.1 p.2 now).focus_window_size := by
      rw [hlen, hsize]; omega
    obtain ⟨h1, h2, h3, h4⟩ := ih (st.add_to_focus p.1 p.2 now) hinv
    refine ⟨?_, ?_, ?_, ?_⟩
    · rw [List.foldl_cons, h1, add_to_focus_assumptions]
    · rw [List.foldl_cons, h2, add_to_focus_questions]
    · rw [List.foldl_cons, h3, hsize]
    · rw [List.foldl_cons, h4, hlen, hsize]
      simp only [List.length_cons]
      omega

theorem fwmAddAll_no_consolidate (now : ℚ) :
    ∀ (l : List (String × String)) (fm : FocusWindowManager) (w : MemWorld),
      fm.operation_count + l.length < fm.consolidation_interval →
      fwmAddAll fm w l now =
        ({ fm with operation_count := fm.operation_count + l.length },
         { w with state := l.foldl (fun s p => s.add_to_focus p.1 p.2 now) w.state }) := by
  intro l
  induction l with
  | nil => intro fm w h; simp [fwmAddAll]
  | cons p tl ih =>
    intro fm w h
    simp only [List.length_cons] at h
    have hstep : fwmAddDecision fm w p.1 p.2 now =
        ({ fm with operation_count := fm.operation_count + 1 },
         { w with state := w.state.add_to_focus p.1 p.2 now }) := by
      simp only [fwmAddDecision]
      rw [if_neg (by omega)]
    have : fwmAddAll fm w (p :: tl) now =
        fwmAddAll ({ fm with operation_count := fm.operation_count + 1 })
          ({ w with state := w.state.add_to_focus p.1 p.2 now }) tl now := by
      simp only [fwmAddAll, List.foldl_cons, hstep]
    rw [this, ih _ _ (by simp; omega)]
    simp only [List.foldl_cons, List.length_cons, Prod.mk.injEq, FocusWindowManager.mk.injEq,
      MemWorld.mk.injEq, true_and, and_true]
    omega

theorem episodic_fold_length (now : ℚ) (etype : String) (g : α → String) :
    ∀ (l : List α) (tr : List EpisodicTrace),
      tr.length ≤ 1000 →
      (l.foldl (fun t x => episodicRecord 1000 t etype (g x) now) tr).length =
        min (tr.length + l.length) 1000 := by
  intro l
  induction l with
  | nil =>
    intro tr h
    simp
    omega
  | cons x tl ih =>
    intro tr h
    have hlen : (episodicRecord 1000 tr etype (g x) now).length =
        min (tr.length + 1) 1000 := by
      simp only [episodicRecord, takeLast_length, List.length_append, List.length_cons,
        List.length_nil]
      omega
    rw [List.foldl_cons, ih _ (by rw [hlen]; omega), hlen]
    simp only [List.length_cons]
    omega

theorem fwmConsolidate_fresh (fm : FocusWindowManager) (st : AgentState) (now : ℚ)
    (ha : st.assumptions = []) (hq : st.open_questions = []) :
    (fwmConsolidate fm ⟨st, [], []⟩ now).2.2.archived =
      st.focus_window.length - fm.max_decisions ∧
    (fwmConsolidate fm ⟨st, [], []⟩ now).2.1.state.focus_window.length =
      min st.focus_window.length fm.max_decisions ∧
    (fwmConsolidate fm ⟨st, [], []⟩ now).2.2.promoted = 0 ∧
    (fwmConsolidate fm ⟨st, [], []⟩ now).2.2.expired = 0 ∧
    (fwmConsolidate fm ⟨st, [], []⟩ now).2.1.episodic.length =
      min (st.focus_window.length - fm.max_decisions) 1000 := by
  by_cases hm : fm.max_decisions < st.focus_window.length
  · have hep := episodic_fold_length now ("decision_archived")
      (fun (item : FocusEntry) => "Decision: " ++ item.decision)
      (st.focus_window.take (st.focus_window.length - fm.max_decisions)) [] (by simp)
    simp only [fwmConsolidate, if_pos hm, ha, hq, AgentState.consolidate,
      AgentState.bump_version, ltmPruneExpired, List.filter_nil, List.foldl_nil,
      List.map_nil, takeLast_length, List.length_nil, List.length_take] at hep ⊢
    refine ⟨by omega, by omega, trivial, trivial, ?_⟩
    rw [hep]
    omega
  · simp only [fwmConsolidate, if_neg hm, ha, hq, AgentState.consolidate,
      AgentState.bump_version, ltmPruneExpired, List.filter_nil, List.foldl_nil,
      List.map_nil, List.length_nil]
    refine ⟨by omega, by omega, trivial, trivial, by omega⟩

theorem fwmScenario_spec :
    ∀ (m k f interval : ℕ) (l : List (String × String)) (now now2 : ℚ),
      l.length = m + k →
      m + k < interval →
      (fwmScenario m interval f l now).2.state.focus_window.length = min (m + k) f ∧
      (fwmConsolidate (fwmScenario m interval f l now).1
        (fwmScenario m interval f l now).2 now2).2.2.archived = min (m + k) f - m ∧
      (fwmConsolidate (fwmScenario m interval f l now).1
        (fwmScenario m interval f l now).2 now2).2.1.state.focus_window.length =
          min (min (m + k) f) m ∧
      (fwmConsolidate (fwmScenario m interval f l now).1
        (fwmScenario m interval f l now).2 now2).2.2.promoted = 0 ∧
      (fwmConsolidate (fwmScenario m interval f l now).1
        (fwmScenario m interval f l now).2 now2).2.2.expired = 0 ∧
      (fwmConsolidate (fwmScenario m interval f l now).1
        (fwmScenario m interval f l now).2 now2).2.1.episodic.length =
          min (min (m + k) f - m) 1000 := by
  intro m k f interval l now now2 hl hlt
  have hfold := foldl_add_to_focus now l (freshStateF f)
    (by simp [freshStateF, AgentState.init])
  obtain ⟨ha, hq, hsz, hlen⟩ := hfold
  rw [show (freshStateF f).assumptions = [] from rfl] at ha
  rw [show (freshStateF f).open_questions = [] from rfl] at hq
  rw [show (freshStateF f).focus_window.length = 0 from rfl,
    show (freshStateF f).focus_window_size = f from rfl, Nat.zero_add, hl] at hlen
  have hw : fwmScenario m interval f l now =
      ({ max_decisions := m, consolidation_interval := interval,
         operation_count := 0 + l.length },
       { state := l.foldl (fun s p => s.add_to_focus p.1 p.2 now) (freshStateF f),
         long_term := [], episodic := [] }) :=
    fwmAddAll_no_consolidate now l ⟨m, interval, 0⟩ ⟨freshStateF f, [], []⟩
      (by simpa [hl] using hlt)
  have hfresh := fwmConsolidate_fresh ⟨m, interval, 0 + l.length⟩
    (l.foldl (fun s p => s.add_to_focus p.1 p.2 now) (freshStateF f)) now2 ha hq
  rw [hw]
  refine ⟨hlen, ?_, ?_, ?_, ?_, ?_⟩
  · rw [hfresh.1, hlen]
  · rw [hfresh.2.1, hlen]
  · exact hfresh.2.2.1
  · exact hfresh.2.2.2.1
  · rw [hfresh.2.2.2.2, hlen]

/- ## Claim theorems -/

/-- Claim C2: retrieve never returns an item whose confidence is below the
confidence threshold — the policy-derived floor (0.5 NORMAL, 0.7 CONSERVATIVE,
0.3 AGGRESSIVE) when no override is given, or the override itself; and in the
concrete three-item scenario, retrieve(FACTUAL_QA, min_confidence=0.7) over
confidences 0.95 / 0.6 / 0.4 returns exactly the 0.95 item. -/
theorem claim_C2 :
    (∀ (store : LongTermStore) (policy : PolicyVersion) (mt : ℚ) (mi : ℕ)
      (intent : RetrievalIntent) (q : Option String) (x : ScoredMemory),
      x ∈ (retrieve store policy mt mi intent q none).items →
      confidenceThreshold none policy ≤ x.item.confidence) ∧
    confidenceThreshold none .normal = 0.5 ∧
    confidenceThreshold none .conservative = 0.7 ∧
    confidenceThreshold none .aggressive = 0.3 ∧
    (∀ (store : LongTermStore) (policy : PolicyVersion) (mt : ℚ) (mi : ℕ)
      (intent : RetrievalIntent) (q : Option String) (mc : ℚ) (x : ScoredMemory),
      x ∈ (retrieve store policy mt mi intent q (some mc)).items →
      mc ≤ x.item.confidence) ∧
    (retrieve scenarioStore .normal 2000 10 .factual_qa none (some 0.7)).items.map
      (fun s => s.item) = [item95] := by
  refine ⟨?_, rfl, rfl, rfl, ?_, ?_⟩
  · intro store policy mt mi intent q x hx
    exact mem_retrieve_confidence hx
  · intro store policy mt mi intent q mc x hx
    exact mem_retrieve_confidence hx
  · have hq : sourceQuality ("verified_tool") = 0.9 := rfl
    have hcand : retrieveCandidates scenarioStore .normal .factual_qa (some 0.7) = [item95] := by
      norm_num [retrieveCandidates, INTENT_CATEGORY_MAP, ltmQuery, List.filter,
        scenarioStore, item95, item60, item40, confidenceThreshold]
    have hsrc : item95.source = "verified_tool" := rfl
    have hconf : item95.confidence = 0.95 := rfl
    have hacc : item95.access_count = 0 := rfl
    have hdecay : item95.decay = 1 := rfl
    have hcontent : item95.content = "alpha fact one" := rfl
    have hscore : computeScore item95 none = 0.715 := by
      rw [computeScore, hsrc, hconf, hacc, hdecay, hq]
      norm_num [min_def]
    have hnv : MemoryItem.needs_verification item95 = false := by
      norm_num [MemoryItem.needs_verification, item95]
      decide
    have hwc : pyWordCount ("alpha fact one") = 3 := by decide
    have hsc : retrieveScored scenarioStore .normal .factual_qa none (some 0.7) =
        [{ item := item95, score := 0.715, needs_verif := false,
           verification_reason := none }] := by
      rw [retrieveScored, hcand]
      norm_num [hscore, hnv, hdecay, verificationThreshold]
    norm_num at hsc
    rw [retrieve]
    norm_num [retrieveDiverse, hsc, sortByScoreDesc, insertByScore, applyDiversity,
      diversityLoop, applyBudget, budgetLoop, List.take, hwc, hcontent]

theorem claim_C2_witness :
    item95 ∈ (retrieve scenarioStore .normal 2000 10 .factual_qa none (some 0.7)).items.map
        (fun s => s.item) ∧
    (∀ x ∈ (retrieve scenarioStore .normal 2000 10 .factual_qa none (some 0.7)).items,
      (0.7 : ℚ) ≤ x.item.confidence) :=
  ⟨by rw [claim_C2.2.2.2.2.2]; simp,
   fun x hx => claim_C2.2.2.2.2.1 scenarioStore .normal 2000 10 .factual_qa none 0.7 x hx⟩

/-- Claim C1 (amended): retrieve's budget stage admits a subsequence (not
always a prefix) of the first max_items*2 post-diversity candidates, still in
descending score order; at most max_items items are returned; when the budget
flag is off and fewer than max_items items were returned, nothing was dropped
(the whole considered list was admitted); and when the flag is on, strictly
fewer items than were considered came back — the flag records a token-budget
drop but the loop keeps admitting later, smaller candidates past one. -/
theorem claim_C1 :
    ∀ (store : LongTermStore) (policy : PolicyVersion) (mt : ℚ) (mi : ℕ)
      (intent : RetrievalIntent) (q : Option String) (mc : Option ℚ),
      (retrieve store policy mt mi intent q mc).items.Sublist
        ((retrieveDiverse store policy intent q mc).take (mi * 2)) ∧
      (retrieve store policy mt mi intent q mc).items.Pairwise
        (fun a b => b.score ≤ a.score) ∧
      (retrieve store policy mt mi intent q mc).items.length ≤ mi ∧
      ((retrieve store policy mt mi intent q mc).budget_exceeded = false →
        (retrieve store policy mt mi intent q mc).items.length < mi →
        (retrieve store policy mt mi intent q mc).items =
          (retrieveDiverse store policy intent q mc).take (mi * 2)) ∧
      ((retrieve store policy mt mi intent q mc).budget_exceeded = true →
        (retrieve store policy mt mi intent q mc).items.length <
          ((retrieveDiverse store policy intent q mc).take (mi * 2)).length) := by
  intro store policy mt mi intent q mc
  have hitems : (retrieve store policy mt mi intent q mc).items =
      (budgetLoop mt mi ((retrieveDiverse store policy intent q mc).take (mi * 2))
        [] 0 false).1 := rfl
  have hexc : (retrieve store policy mt mi intent q mc).budget_exceeded =
      (budgetLoop mt mi ((retrieveDiverse store policy intent q mc).take (mi * 2))
        [] 0 false).2 := rfl
  have hsub : (retrieve store policy mt mi intent q mc).items.Sublist
      ((retrieveDiverse store policy intent q mc).take (mi * 2)) := by
    rw [hitems]
    simpa using budgetLoop_sublist mt mi
      ((retrieveDiverse store policy intent q mc).take (mi * 2)) [] 0 false
  refine ⟨hsub, ?_, ?_, ?_, ?_⟩
  · have hpw : (sortByScoreDesc (retrieveScored store policy intent q mc)).Pairwise
        (fun a b => b.score ≤ a.score) := sortByScoreDesc_pairwise _
    have hd : (retrieveDiverse store policy intent q mc).Sublist
        (sortByScoreDesc (retrieveScored store policy intent q mc)) :=
      applyDiversity_sublist _
    exact List.Pairwise.sublist (hsub.trans ((List.take_sublist _ _).trans hd)) hpw
  · rcases Nat.eq_zero_or_pos mi with rfl | hpos
    · rw [hitems]
      simp [budgetLoop]
    · rw [hitems]
      exact budgetLoop_length mt mi _ [] 0 false (by simpa using hpos)
  · intro hE hL
    rw [hitems] at hL ⊢
    rw [hexc] at hE
    simpa using budgetLoop_complete mt mi _ [] 0 hE hL
  · intro hE
    rw [hitems]
    rw [hexc] at hE
    simpa using budgetLoop_dropped mt mi _ [] 0 hE

theorem claim_C1_witness :
    (retrieve [] .normal 2000 10 .factual_qa none none).budget_exceeded = false ∧
    (retrieve [] .normal 2000 10 .factual_qa none none).items.length < 10 ∧
    (retrieve [] .normal 2000 10 .factual_qa none none).items =
      (retrieveDiverse [] .normal .factual_qa none none).take (10 * 2) :=
  ⟨rfl, by decide,
   (claim_C1 [] .normal 2000 10 .factual_qa none none).2.2.2.1 rfl (by decide)⟩

/-- Claim C1 counterexample: with a 13-token high-scoring item ahead of a
2.6-token low-scoring item and max_tokens = 5, the loop skips the first item
(setting budget_exceeded) but still admits the second, so the returned items
are not a prefix of the post-diversity candidates. -/
theorem claim_C1_counterexample :
    (retrieve budgetStore .normal 5 10 .factual_qa none none).items.map
        (fun s => s.item) = [smallItem] ∧
    (retrieveDiverse budgetStore .normal .factual_qa none none).map
        (fun s => s.item) = [bigItem, smallItem] ∧
    (retrieve budgetStore .normal 5 10 .factual_qa none none).budget_exceeded = true ∧
    (retrieve budgetStore .normal 5 10 .factual_qa none none).items.map (fun s => s.item) ≠
      ((retrieveDiverse budgetStore .normal .factual_qa none none).take
        (retrieve budgetStore .normal 5 10 .factual_qa none none).items.length).map
        (fun s => s.item) := by
  have hqual : sourceQuality ("unknown") = 0.3 := rfl
  have hcand : retrieveCandidates budgetStore .normal .factual_qa none = [bigItem, smallItem] := by
    norm_num [retrieveCandidates, INTENT_CATEGORY_MAP, ltmQuery, List.filter,
      budgetStore, bigItem, smallItem, confidenceThreshold]
  have hsrcB : bigItem.source = "unknown" := rfl
  have hsrcS : smallItem.source = "unknown" := rfl
  have hconfB : bigItem.confidence = 0.95 := rfl
  have hconfS : smallItem.confidence = 0.6 := rfl
  have haccB : bigItem.access_count = 0 := rfl
  have haccS : smallItem.access_count = 0 := rfl
  have hdecB : bigItem.decay = 1 := rfl
  have hdecS : smallItem.decay = 1 := rfl
  have hscB : computeScore bigItem none = 0.595 := by
    rw [computeScore, hsrcB, hconfB, haccB, hdecB, hqual]
    norm_num [min_def]
  have hscS : computeScore smallItem none = 0.49 := by
    rw [computeScore, hsrcS, hconfS, haccS, hdecS, hqual]
    norm_num [min_def]
  have hnvB : MemoryItem.needs_verification bigItem = false := by
    norm_num [MemoryItem.needs_verification, bigItem]
    decide
  have hnvS : MemoryItem.needs_verification smallItem = false := by
    norm_num [MemoryItem.needs_verification, smallItem]
    decide
  have hvrB : getVerificationReason bigItem = [VerifyReason.noEvidence] := by
    norm_num [getVerificationReason, bigItem]
    decide
  have hvrS : getVerificationReason smallItem = [VerifyReason.noEvidence] := by
    norm_num [getVerificationReason, smallItem]
    decide
  have hsim : contentSimilarity smallItem.content bigItem.content = 0 := by
    have h1 : wordSet (lowerL (smallItem.content).toList) ≠ [] := by decide
    have h2 : wordSet (lowerL (bigItem.content).toList) ≠ [] := by decide
    have h3 : interCount (wordSet (lowerL (smallItem.content).toList))
        (wordSet (lowerL (bigItem.content).toList)) = 0 := by decide
    rw [contentSimilarity]
    simp only [String.toList] at h1 h2 h3
    simp [h1, h2, h3]
  have hwcB : pyWordCount (bigItem.content) = 10 := by decide
  have hwcS : pyWordCount (smallItem.content) = 2 := by decide
  have hsc : retrieveScored budgetStore .normal .factual_qa none none =
      [{ item := bigItem, score := 0.595, needs_verif := true,
         verification_reason := some [VerifyReason.noEvidence] },
       { item := smallItem, score := 0.49, needs_verif := true,
         verification_reason := some [VerifyReason.noEvidence] }] := by
    rw [retrieveScored, hcand]
    norm_num [hscB, hscS, hnvB, hnvS, hdecB, hdecS, hvrB, hvrS, verificationThreshold]
  have hdiv : retrieveDiverse budgetStore .normal .factual_qa none none =
      [{ item := bigItem, score := 0.595, needs_verif := true,
         verification_reason := some [VerifyReason.noEvidence] },
       { item := smallItem, score := 0.49, needs_verif := true,
         verification_reason := some [VerifyReason.noEvidence] }] := by
    rw [retrieveDiverse, hsc]
    norm_num [sortByScoreDesc, insertByScore, applyDiversity, diversityLoop, hsim]
  have hbig_ne : bigItem ≠ smallItem := by
    simp [bigItem, smallItem]
  refine ⟨?_, ?_, ?_, ?_⟩
  · rw [retrieve]
    norm_num [hdiv, applyBudget, budgetLoop, hwcB, hwcS, List.take]
  · rw [hdiv]; norm_num
  · rw [retrieve]
    norm_num [hdiv, applyBudget, budgetLoop, hwcB, hwcS, List.take]
  · have h1 : (retrieve budgetStore .normal 5 10 .factual_qa none none).items.map
        (fun s => s.item) = [smallItem] := by
      rw [retrieve]
      norm_num [hdiv, applyBudget, budgetLoop, hwcB, hwcS, List.take]
    have h2 : (retrieve budgetStore .normal 5 10 .factual_qa none none).items.length = 1 := by
      have := congrArg List.length h1
      simpa using this
    rw [h1, h2, hdiv]
    simp [List.take]
    exact fun hc => hbig_ne hc.symm

/-- Claim C3 (amended): recording only 2 USER_CORRECTION signals on a fresh
DriftMonitor leaves the policy 'normal', because _check_drift returns without
checking anything while the window holds fewer than 5 signals; with 5
signals recorded (of which at least 2 are USER_CORRECTION) drift is declared
and the policy switches to 'conservative', and a subsequent reset() returns
the policy to 'normal' and clears the window. -/
theorem claim_C3 :
    ∀ n1 n2 n3 n4 n5 nr : ℚ,
      ((driftTwo n1 n2).1.get_health_summary (driftTwo n1 n2).2).policy = "normal" ∧
      ((driftFive n1 n2 n3 n4 n5).1.get_health_summary
        (driftFive n1 n2 n3 n4 n5).2).policy = "conservative" ∧
      (((driftFive n1 n2 n3 n4 n5).1.reset (driftFive n1 n2 n3 n4 n5).2
        nr).2).policy_version.value = "normal" ∧
      (((driftFive n1 n2 n3 n4 n5).1.reset (driftFive n1 n2 n3 n4 n5).2
        nr).1).signal_window = [] := by
  intro n1 n2 n3 n4 n5 nr
  refine ⟨?_, ?_, ?_, ?_⟩ <;>
    simp [driftTwo, driftFive, DriftMonitor.record_signal, DriftMonitor.check_drift,
      DriftMonitor.init, AgentState.init, takeLast, driftReasons, countSignals,
      totalSeverity, triggerDriftResponse, AgentState.record_quality_signal,
      AgentState.check_drift, DriftMonitor.get_health_summary, DriftMonitor.reset,
      AgentState.reset_quality_signals, AgentState.bump_version, PolicyVersion.value]

/-- Claim C3 counterexample: after exactly 2 USER_CORRECTION signals on a
fresh DriftMonitor and fresh AgentState, the reported policy is 'normal', not
'conservative' — the drift check is skipped while the window holds fewer
than 5 signals. -/
theorem claim_C3_counterexample :
    ((driftTwo 0 1).1.get_health_summary (driftTwo 0 1).2).policy = "normal" ∧
    ¬ ((driftTwo 0 1).1.get_health_summary (driftTwo 0 1).2).policy = "conservative" := by
  constructor <;>
    simp [driftTwo, DriftMonitor.record_signal, DriftMonitor.check_drift,
      DriftMonitor.init, AgentState.init, takeLast,
      DriftMonitor.get_health_summary, PolicyVersion.value]

/-- Claim C6 (amended): adding max_decisions + k decisions through
FocusWindowManager.add_decision (below the consolidation trigger) leaves the
focus window at min(max_decisions + k, focus_window_size) entries, because
AgentState.add_to_focus already trims to focus_window_size at every add and
the trimmed overflow is dropped silently; a subsequent consolidate() archives
only what is still in the window beyond max_decisions, reporting archived =
min(max_decisions + k, focus_window_size) - max_decisions (which equals k
only when max_decisions + k fits within focus_window_size), with exactly the
archived entries recorded into episodic traces, and promoted = expired = 0 on
a fresh world. -/
theorem claim_C6 :
    ∀ (m k f interval : ℕ) (l : List (String × String)) (now now2 : ℚ),
      l.length = m + k →
      m + k < interval →
      (fwmScenario m interval f l now).2.state.focus_window.length = min (m + k) f ∧
      (fwmConsolidate (fwmScenario m interval f l now).1
        (fwmScenario m interval f l now).2 now2).2.2.archived = min (m + k) f - m ∧
      (fwmConsolidate (fwmScenario m interval f l now).1
        (fwmScenario m interval f l now).2 now2).2.1.state.focus_window.length =
          min (min (m + k) f) m ∧
      (fwmConsolidate (fwmScenario m interval f l now).1
        (fwmScenario m interval f l now).2 now2).2.2.promoted = 0 ∧
      (fwmConsolidate (fwmScenario m interval f l now).1
        (fwmScenario m interval f l now).2 now2).2.2.expired = 0 ∧
      (fwmConsolidate (fwmScenario m interval f l now).1
        (fwmScenario m interval f l now).2 now2).2.1.episodic.length =
          min (min (m + k) f - m) 1000 :=
  fwmScenario_spec

theorem claim_C6_witness :
    ((List.replicate 7 (("d"), ("r")) : List (String × String)).length = 5 + 2 ∧
      5 + 2 < 20) ∧
    (fwmConsolidate (fwmScenario 5 20 10 (List.replicate 7 (("d"), ("r"))) 0).1
      (fwmScenario 5 20 10 (List.replicate 7 (("d"), ("r"))) 0).2 0).2.2.archived =
      min (5 + 2) 10 - 5 :=
  ⟨⟨by simp, by norm_num⟩,
   (claim_C6 5 2 10 20 (List.replicate 7 (("d"), ("r"))) 0 0 (by simp)
     (by norm_num)).2.1⟩

/-- Claim C6 counterexample: with the default bounds (max_decisions = 10 and
AgentState's focus_window_size = 10) and k = 1, adding 11 decisions leaves
the focus window at exactly 10 entries, but consolidate() reports
archived = 0, not k = 1 — the overflow entry was already trimmed away by
add_to_focus and never reaches the episodic archive. -/
theorem claim_C6_counterexample :
    (fwmScenario 10 20 10 (List.replicate 11 (("d"), ("r"))) 0).2.state.focus_window.length
        = 10 ∧
    (fwmConsolidate (fwmScenario 10 20 10 (List.replicate 11 (("d"), ("r"))) 0).1
      (fwmScenario 10 20 10 (List.replicate 11 (("d"), ("r"))) 0).2 0).2.2.archived = 0 ∧
    ¬ ((fwmConsolidate (fwmScenario 10 20 10 (List.replicate 11 (("d"), ("r"))) 0).1
      (fwmScenario 10 20 10 (List.replicate 11 (("d"), ("r"))) 0).2 0).2.2.archived = 1) := by
  have h := fwmScenario_spec 10 1 10 20 (List.replicate 11 (("d"), ("r"))) 0 0
    (by simp) (by norm_num)
  obtain ⟨h1, h2, _, _, _, _⟩ := h
  refine ⟨by rw [h1]; omega, by rw [h2]; omega, by rw [h2]; omega⟩

/-- Claim C8: with a store holding exactly one ACTIVE item whose content is
"anchoring effect size is d = 0.5", check_contradiction on "anchoring effect
size is d = 0.2" returns exactly one contradiction, pairing that item with a
numeric-conflict reason: the key d mapped to 0.2 in the new text and 0.5 in
the stored one. -/
theorem claim_C8 :
    check_contradiction [anchorItem] ("anchoring effect size is d = 0.2") none =
      [(anchorItem, ConflictReason.numeric ("d".toList) 0.2 0.5)] := by
  have hfa1n : findAll [RTok.word, RTok.wsStar, RTok.eqColon, RTok.wsStar, RTok.num]
      (lowerL ("anchoring effect size is d = 0.2").toList) =
      [("d".toList, "0.2".toList)] := by decide
  have hfa2n : findAll [RTok.word, RTok.wsPlus, RTok.lit ("is".toList), RTok.wsPlus, RTok.num]
      (lowerL ("anchoring effect size is d = 0.2").toList) = [] := by decide
  have hfa3n : findAll [RTok.word, RTok.wsPlus, RTok.lit ("are".toList), RTok.wsPlus, RTok.num]
      (lowerL ("anchoring effect size is d = 0.2").toList) = [] := by decide
  have hfa1o : findAll [RTok.word, RTok.wsStar, RTok.eqColon, RTok.wsStar, RTok.num]
      (lowerL ("anchoring effect size is d = 0.5").toList) =
      [("d".toList, "0.5".toList)] := by decide
  have hfa2o : findAll [RTok.word, RTok.wsPlus, RTok.lit ("is".toList), RTok.wsPlus, RTok.num]
      (lowerL ("anchoring effect size is d = 0.5").toList) = [] := by decide
  have hfa3o : findAll [RTok.word, RTok.wsPlus, RTok.lit ("are".toList), RTok.wsPlus, RTok.num]
      (lowerL ("anchoring effect size is d = 0.5").toList) = [] := by decide
  have hpf2 : parseFloatDigits ("0.2".toList) = some (2, 1) := by decide
  have hpf5 : parseFloatDigits ("0.5".toList) = some (5, 1) := by decide
  have hexn : extract_numbers (lowerL ("anchoring effect size is d = 0.2").toList) =
      [("d".toList, (0.2 : ℚ))] := by
    simp only [extract_numbers, numberPatterns, List.foldl_cons, List.foldl_nil,
      hfa1n, hfa2n, hfa3n, parseFloat, hpf2, Option.map_some', upsertNum]
    norm_num
  have hexo : extract_numbers (lowerL ("anchoring effect size is d = 0.5").toList) =
      [("d".toList, (0.5 : ℚ))] := by
    simp only [extract_numbers, numberPatterns, List.foldl_cons, List.foldl_nil,
      hfa1o, hfa2o, hfa3o, parseFloat, hpf5, Option.map_some', upsertNum]
    norm_num
  have hneg : negationConflict (lowerL ("anchoring effect size is d = 0.2").toList)
      (lowerL ("anchoring effect size is d = 0.5").toList) = none := by decide
  have hnum : numericConflict (lowerL ("anchoring effect size is d = 0.2").toList)
      (lowerL ("anchoring effect size is d = 0.5").toList) =
      some (ConflictReason.numeric ("d".toList) 0.2 0.5) := by
    simp only [numericConflict]
    rw [hexn, hexo]
    simp only [List.findSome?, lookupNum, List.find?]
    norm_num
  have hdet : detect_contradiction ("anchoring effect size is d = 0.2")
      ("anchoring effect size is d = 0.5") =
      some (ConflictReason.numeric ("d".toList) 0.2 0.5) := by
    simp only [detect_contradiction, hneg, hnum]
  have hq : ltmQuery [anchorItem] none none (some .active) 0 none = [anchorItem] := by
    norm_num [ltmQuery, anchorItem, List.filter]
  simp only [check_contradiction, hq, List.filterMap]
  rw [show anchorItem.content = "anchoring effect size is d = 0.5" from rfl, hdet]
  simp

/-- Claim C9 (amended): a missing persistence file or content the JSON
decoder rejects is treated as an empty store by both LongTermMemory and
EpisodicTraces loading (FileNotFoundError and json.JSONDecodeError are the
two caught exception classes); but JSON that decodes and then fails schema
rebuilding raises — a record without a "content" key raises KeyError out of
LongTermMemory._load, and one without "trace_id" out of
EpisodicTraces._load. -/
theorem claim_C9 :
    ltmLoad FileState.missing = Except.ok [] ∧
    ltmLoad FileState.undecodable = Except.ok [] ∧
    episodicLoad FileState.missing = Except.ok [] ∧
    episodicLoad FileState.undecodable = Except.ok [] ∧
    ltmLoad badLtmFile = Except.error (PyError.keyError ("content")) ∧
    episodicLoad badEpisodicFile = Except.error (PyError.keyError ("trace_id")) := by
  refine ⟨rfl, rfl, rfl, rfl, ?_, ?_⟩ <;>
    simp [ltmLoad, episodicLoad, badLtmFile, badEpisodicFile, memItemFromDict,
      episodicTraceFromDict, jIndex, jGet, List.mapM, List.mapM.loop, List.find?,
      bind, Except.bind, Functor.map, Except.map]

/-- Claim C9 counterexample: a persistence file holding well-formed JSON
whose record lacks the required keys makes both loaders raise instead of
falling back to an empty store — only missing-file and JSON-decode errors
are caught. -/
theorem claim_C9_counterexample :
    (∀ s : LongTermStore, ltmLoad badLtmFile ≠ Except.ok s) ∧
    (∀ t : List EpisodicTrace, episodicLoad badEpisodicFile ≠ Except.ok t) := by
  have h1 : ltmLoad badLtmFile = Except.error (PyError.keyError ("content")) := by
    simp [ltmLoad, badLtmFile, memItemFromDict, jIndex, jGet, List.mapM, List.mapM.loop,
      List.find?, bind, Except.bind, Functor.map, Except.map]
  have h2 : episodicLoad badEpisodicFile = Except.error (PyError.keyError ("trace_id")) := by
    simp [episodicLoad, badEpisodicFile, episodicTraceFromDict, jIndex, jGet, List.mapM,
      List.mapM.loop, List.find?, bind, Except.bind, Functor.map, Except.map]
  exact ⟨fun s => by rw [h1]; exact fun hc => Except.noConfusion hc,
         fun t => by rw [h2]; exact fun hc => Except.noConfusion hc⟩

/-- Claim C10: for every WorkingContext, whatever max_items it is constructed
with, the internal items buffer holds at most 20 entries after any sequence
of add() calls, evicting oldest first (the buffer is the last 20 processed
entries), and its contents do not depend on the max_items field. -/
theorem claim_C10 :
    ∀ (mi mi' : ℕ) (l : List (String × String)),
      ((WorkingContext.init mi).addAll l).items.length ≤ 20 ∧
      ((WorkingContext.init mi).addAll l).items =
        takeLast 20 (l.map (fun p => WorkingEntry.mk (truncate500 p.1) p.2)) ∧
      ((WorkingContext.init mi).addAll l).items = ((WorkingContext.init mi').addAll l).items := by
  intro mi mi' l
  have h := fun m => (addAll_items l (WorkingContext.init m)).resolve_right
    (by simp [WorkingContext.init])
  have hmi := h mi
  have hmi' := h mi'
  rw [show (WorkingContext.init mi).items = [] from rfl, List.nil_append] at hmi
  rw [show (WorkingContext.init mi').items = [] from rfl, List.nil_append] at hmi'
  refine ⟨?_, hmi, ?_⟩
  · rw [hmi]; exact takeLast_length_le 20 _
  · rw [hmi, hmi']

/-- Claim C4: from a fresh AgentState, any mix of exactly 3 quality signals
drawn from user_correction / tool_retry / verification_failure makes
policy_version CONSERVATIVE, and no earlier (after 2 it is still NORMAL);
after reset_quality_signals() the policy is NORMAL and all three private
counters are zero. -/
theorem claim_C4 :
    ∀ (t1 t2 t3 : String) (n1 n2 n3 n4 : ℚ),
      t1 ∈ ["user_correction", "tool_retry", "verification_failure"] →
      t2 ∈ ["user_correction", "tool_retry", "verification_failure"] →
      t3 ∈ ["user_correction", "tool_retry", "verification_failure"] →
      ((AgentState.init.record_quality_signal t1 n1).record_quality_signal t2 n2).policy_version
          = PolicyVersion.normal ∧
      (((AgentState.init.record_quality_signal t1 n1).record_quality_signal t2 n2).record_quality_signal
          t3 n3).policy_version = PolicyVersion.conservative ∧
      ((((AgentState.init.record_quality_signal t1 n1).record_quality_signal t2 n2).record_quality_signal
          t3 n3).reset_quality_signals n4).policy_version = PolicyVersion.normal ∧
      ((((AgentState.init.record_quality_signal t1 n1).record_quality_signal t2 n2).record_quality_signal
          t3 n3).reset_quality_signals n4).user_corrections = 0 ∧
      ((((AgentState.init.record_quality_signal t1 n1).record_quality_signal t2 n2).record_quality_signal
          t3 n3).reset_quality_signals n4).tool_retries = 0 ∧
      ((((AgentState.init.record_quality_signal t1 n1).record_quality_signal t2 n2).record_quality_signal
          t3 n3).reset_quality_signals n4).verification_failures = 0 := by
  intro t1 t2 t3 n1 n2 n3 n4 h1 h2 h3
  simp only [List.mem_cons, List.mem_singleton, List.not_mem_nil, or_false] at h1 h2 h3
  rcases h1 with rfl | rfl | rfl <;> rcases h2 with rfl | rfl | rfl <;>
    rcases h3 with rfl | rfl | rfl <;>
    simp [AgentState.record_quality_signal, AgentState.check_drift,
      AgentState.reset_quality_signals, AgentState.bump_version, AgentState.init]

theorem claim_C4_witness :
    ("user_correction" ∈ ["user_correction", "tool_retry", "verification_failure"] ∧
     "tool_retry" ∈ ["user_correction", "tool_retry", "verification_failure"]) ∧
    ((((AgentState.init.record_quality_signal ("user_correction") 0).record_quality_signal
        ("tool_retry") 1).record_quality_signal ("verification_failure") 2).reset_quality_signals
        3).policy_version = PolicyVersion.normal :=
  ⟨⟨by simp, by simp⟩,
    (claim_C4 ("user_correction") ("tool_retry") ("verification_failure") 0 1 2 3
      (by simp) (by simp) (by simp)).2.2.1⟩

/-- Claim C7 (amended): every listed AgentState mutator bumps version by
exactly one and touches last_updated in its state-changing configuration,
with one exception the source carves out: the duplicate-content path of
add_assumption merges confidence via max() and returns without bumping the
version.  The version never decreases under any of these calls. -/
theorem claim_C7 :
    ∀ (s : AgentState) (now : ℚ),
      (∀ g p, g ∉ s.goals → (s.set_goal g p now).version = s.version + 1 ∧
        (s.set_goal g p now).last_updated = now) ∧
      (∀ g, g ∈ s.goals → (s.complete_goal g now).version = s.version + 1) ∧
      (∀ c, c ∉ s.constraints → (s.add_constraint c now).version = s.version + 1) ∧
      (∀ c conf src, c ∉ s.assumptions.map (fun a => a.content) →
        (s.add_assumption c conf src now).version = s.version + 1) ∧
      (∀ c conf src, c ∈ s.assumptions.map (fun a => a.content) →
        (s.add_assumption c conf src now).version = s.version) ∧
      (∀ c, c ∈ s.assumptions.map (fun a => a.content) →
        (s.verify_assumption c now).version = s.version + 1) ∧
      (∀ c, c ∈ s.assumptions.map (fun a => a.content) →
        (s.invalidate_assumption c now).version = s.version + 1) ∧
      (∀ q ctx pr, (s.add_question q ctx pr now).version = s.version + 1) ∧
      (∀ q r, q ∈ s.open_questions.map (fun x => x.question) →
        (s.resolve_question q r now).version = s.version + 1) ∧
      (∀ k v, (s.set_env_flag k v now).version = s.version + 1) ∧
      (∀ d r, (s.add_to_focus d r now).version = s.version + 1) ∧
      (∀ g p, s.version ≤ (s.set_goal g p now).version) ∧
      (∀ g, s.version ≤ (s.complete_goal g now).version) ∧
      (∀ c, s.version ≤ (s.add_constraint c now).version) ∧
      (∀ c conf src, s.version ≤ (s.add_assumption c conf src now).version) ∧
      (∀ c, s.version ≤ (s.verify_assumption c now).version) ∧
      (∀ c, s.version ≤ (s.invalidate_assumption c now).version) ∧
      (∀ q r, s.version ≤ (s.resolve_question q r now).version) := by
  intro s now
  refine ⟨?_, ?_, ?_, ?_, ?_, ?_, ?_, ?_, ?_, ?_, ?_, ?_, ?_, ?_, ?_, ?_, ?_, ?_⟩
  · intro g p h; simp [AgentState.set_goal, h, AgentState.bump_version]
  · intro g h; simp [AgentState.complete_goal, h, AgentState.bump_version]
  · intro c h; simp [AgentState.add_constraint, h, AgentState.bump_version]
  · intro c conf src h
    have := (updateAssumption_eq_none_iff c conf s.assumptions).2 h
    simp [AgentState.add_assumption, this, AgentState.bump_version]
  · intro c conf src h
    rcases ho : updateAssumption c conf s.assumptions with _ | l
    · exact absurd ((updateAssumption_eq_none_iff c conf s.assumptions).1 ho) (by simpa using h)
    · simp [AgentState.add_assumption, ho]
  · intro c h
    rcases ho : markVerified c s.assumptions with _ | l
    · exact absurd ((markVerified_eq_none_iff c s.assumptions).1 ho) (by simpa using h)
    · simp [AgentState.verify_assumption, ho, AgentState.bump_version]
  · intro c h
    rcases ho : dropAssumption c s.assumptions with _ | l
    · exact absurd ((dropAssumption_eq_none_iff c s.assumptions).1 ho) (by simpa using h)
    · simp [AgentState.invalidate_assumption, ho, AgentState.bump_version]
  · intro q ctx pr; simp [AgentState.add_question, AgentState.bump_version]
  · intro q r h
    rcases ho : markResolved q r s.open_questions with _ | l
    · exact absurd ((markResolved_eq_none_iff q r s.open_questions).1 ho) (by simpa using h)
    · simp [AgentState.resolve_question, ho, AgentState.bump_version]
  · intro k v; simp [AgentState.set_env_flag, AgentState.bump_version]
  · intro d r; simp [AgentState.add_to_focus, AgentState.bump_version]
  · intro g p
    by_cases h : g ∈ s.goals <;> simp [AgentState.set_goal, h, AgentState.bump_version]
  · intro g
    by_cases h : g ∈ s.goals <;> simp [AgentState.complete_goal, h, AgentState.bump_version]
  · intro c
    by_cases h : c ∈ s.constraints <;> simp [AgentState.add_constraint, h, AgentState.bump_version]
  · intro c conf src
    rcases ho : updateAssumption c conf s.assumptions with _ | l <;>
      simp [AgentState.add_assumption, ho, AgentState.bump_version]
  · intro c
    rcases ho : markVerified c s.assumptions with _ | l <;>
      simp [AgentState.verify_assumption, ho, AgentState.bump_version]
  · intro c
    rcases ho : dropAssumption c s.assumptions with _ | l <;>
      simp [AgentState.invalidate_assumption, ho, AgentState.bump_version]
  · intro q r
    rcases ho : markResolved q r s.open_questions with _ | l <;>
      simp [AgentState.resolve_question, ho, AgentState.bump_version]

theorem claim_C7_witness :
    (("g") ∉ AgentState.init.goals) ∧
    (AgentState.init.set_goal ("g") 0 5).version = AgentState.init.version + 1 :=
  ⟨by simp [AgentState.init],
   ((claim_C7 AgentState.init 5).1 ("g") 0 (by simp [AgentState.init])).1⟩

/-- Claim C7 counterexample: a second add_assumption with duplicate content
and a higher confidence changes the state (the stored confidence rises via
max()) yet does not increment the version, refuting the claim that every
state-changing mutator call strictly increments it. -/
theorem claim_C7_counterexample :
    ((((AgentState.init.add_assumption ("x") (1/2) ("src") 0)).add_assumption ("x") (9/10)
        ("src") 1).assumptions.map (fun a => a.confidence) = [9/10]) ∧
    (((AgentState.init.add_assumption ("x") (1/2) ("src") 0)).add_assumption ("x") (9/10)
        ("src") 1) ≠ (AgentState.init.add_assumption ("x") (1/2) ("src") 0) ∧
    ((((AgentState.init.add_assumption ("x") (1/2) ("src") 0)).add_assumption ("x") (9/10)
        ("src") 1).version = ((AgentState.init.add_assumption ("x") (1/2) ("src") 0)).version) := by
  refine ⟨?_, ?_, ?_⟩ <;>
    norm_num [AgentState.add_assumption, updateAssumption, AgentState.init,
      AgentState.bump_version, Assumption.mk.injEq, AgentState.mk.injEq]

/-- Claim C5 (amended): decay_factor is strictly decreasing in age_hours, and
at age_hours = effective_half_life it equals exp(-0.693), which is strictly
greater than 0.5 because the source uses 0.693 in place of ln 2; the
effective half-life is the custom override when set, else the category
default (FACTUAL 168h, PROCEDURAL 336h, CONTEXTUAL 72h, ENVIRONMENTAL 24h,
DECISION 48h). -/
theorem claim_C5 :
    ∀ hl : ℝ, 0 < hl →
      StrictAnti (decayFactorReal hl) ∧
      decayFactorReal hl hl = Real.exp (-(0.693 : ℝ)) ∧
      (1 : ℝ)/2 < decayFactorReal hl hl ∧
      (∀ it : MemoryItem, it.half_life_hours = none →
        it.effective_half_life = HALF_LIFE_CONFIG it.category) ∧
      (∀ (it : MemoryItem) (q : ℚ), it.half_life_hours = some q →
        it.effective_half_life = q) ∧
      HALF_LIFE_CONFIG .factual = 168 ∧ HALF_LIFE_CONFIG .procedural = 336 ∧
      HALF_LIFE_CONFIG .contextual = 72 ∧ HALF_LIFE_CONFIG .environmental = 24 ∧
      HALF_LIFE_CONFIG .decision = 48 := by
  intro hl hpos
  have hval : decayFactorReal hl hl = Real.exp (-(0.693 : ℝ)) :=
    decay_at_half_life (ne_of_gt hpos)
  have hgt : (1 : ℝ)/2 < Real.exp (-(0.693 : ℝ)) := exp_neg_addr_gt_half
  refine ⟨?_, hval, hval ▸ hgt, ?_, ?_, rfl, rfl, rfl, rfl, rfl⟩
  · intro a b hab
    unfold decayFactorReal
    apply Real.exp_lt_exp.2
    have hc : 0 < 0.693 / hl := by positivity
    nlinarith
  · intro it h; simp [MemoryItem.effective_half_life, h]
  · intro it q h; simp [MemoryItem.effective_half_life, h]

theorem claim_C5_witness :
    (0 : ℝ) < 168 ∧
    (decayFactorReal 168 168 = Real.exp (-(0.693 : ℝ)) ∧
      (1 : ℝ)/2 < decayFactorReal 168 168) :=
  ⟨by norm_num,
   ⟨(claim_C5 168 (by norm_num)).2.1, (claim_C5 168 (by norm_num)).2.2.1⟩⟩

/-- Claim C5 counterexample: at age_hours = effective_half_life the decay
factor is not 0.5 — with the FACTUAL default half-life of 168 hours,
decay_factor at age 168 is exp(-0.693), strictly above one half. -/
theorem claim_C5_counterexample : decayFactorReal 168 168 ≠ 1/2 := by
  have hval : decayFactorReal 168 168 = Real.exp (-(0.693 : ℝ)) :=
    decay_at_half_life (by norm_num)
  have := exp_neg_addr_gt_half
  rw [hval]
  intro hc
  rw [hc] at this
  exact absurd this (lt_irrefl _)

end StatsMem
